import Mathlib

/-!
Verification of the CelFlow desktop bridge (Tauri commands in
`src/frontend/desktop/src-tauri/src/lib.rs` and
`src/selflow-desktop/src-tauri/src/lib.rs`).

The Rust commands shell out to a Python backend, capture its output, and decode
stdout with `serde_json`.  The shallow embedding below models:

* the subprocess layer as an oracle `World : InvocationRequest → SpawnResult`
  (the OS either fails to spawn, or returns an `Output` of exit code, stdout
  and stderr; stdout/stderr bytes are modelled as `String`, matching the
  source's `String::from_utf8_lossy` on well-formed UTF-8);
* `serde_json` text parsing as a total, fuel-bounded JSON parser over
  `List Char` (`parseValue`), with JSON numbers kept as exact decimal
  literals (`JNum`: sign, integer part, fraction digits, optional exponent)
  rather than binary floats — no arithmetic is ever performed on them in the
  source, they are only carried through;
* the serde `Derive(Serialize, Deserialize)` instances of the result structs as
  explicit encoders to / decoders from the `Json` tree (field lookup by name,
  unknown fields ignored, duplicate fields rejected, missing `Option` fields
  defaulting to `none`, `u32` fields as `Nat` with an explicit `< 2^32` range
  check);
* the Python consuming layer of the inline chat scripts as a parser of Python
  double-quoted string literals (`pyParseStrLit`).

serde's human-readable error detail strings are not modelled: a decode failure
carries only the fixed prefix the Rust source formats in front of them.
-/

/-! ## Characters and low-level lexing helpers -/

/-- JSON insignificant whitespace (RFC 8259), as skipped by `serde_json`. -/
def isJsonWs (c : Char) : Bool :=
  c = ' ' || c = '\t' || c = '\n' || c = '\r'

/-- Drop leading JSON whitespace. -/
def skipWs (l : List Char) : List Char := l.dropWhile isJsonWs

/-- Drop trailing JSON whitespace.  `serde_json::from_str` accepts trailing
whitespace after the document and nothing else, so trimming it up front is
behaviourally equivalent and makes that tolerance a plain list fact. -/
def dropTrailingWs (l : List Char) : List Char :=
  (l.reverse.dropWhile isJsonWs).reverse

/-- The decimal digit character of `d`. -/
def digitChar (d : Fin 10) : Char := Char.ofNat (48 + d.val)

/-- Decimal digit characters of `n`, most significant first, structurally
recursive on a fuel bound so the kernel can evaluate it. -/
def natDigitsF : Nat → Nat → List Char
  | 0, _ => []
  | f + 1, n =>
    if n < 10 then [Char.ofNat (48 + n)]
    else natDigitsF f (n / 10) ++ [Char.ofNat (48 + n % 10)]

/-- Decimal digit characters of `n`, most significant first. -/
def natDigits (n : Nat) : List Char := natDigitsF (n + 1) n

/-- Numeric value of a run of decimal digit characters. -/
def digitsVal (l : List Char) : Nat :=
  l.foldl (fun a c => a * 10 + (c.toNat - 48)) 0

/-- Lower-case hex digit character of `n < 16` (as `serde_json` emits). -/
def hexDig (n : Nat) : Char :=
  if n < 10 then Char.ofNat (48 + n) else Char.ofNat (87 + n)

/-- Value of a hex digit character, either case. -/
def hexVal (c : Char) : Option Nat :=
  if 48 ≤ c.toNat ∧ c.toNat ≤ 57 then some (c.toNat - 48)
  else if 97 ≤ c.toNat ∧ c.toNat ≤ 102 then some (c.toNat - 87)
  else if 65 ≤ c.toNat ∧ c.toNat ≤ 70 then some (c.toNat - 55)
  else none

/-! ## JSON documents

`JNum` keeps a JSON number literal exactly as written (minus sign, integer
part, fraction digits, optional signed exponent); `serde_json` would read it
into an `f64`/`u64`, but the bridge only carries these numbers through, so the
decimal literal is the faithful observable value. -/

structure JNum where
  neg : Bool
  ip : Nat
  frac : List (Fin 10)
  exp : Option (Bool × Nat)
deriving DecidableEq

/-- A JSON document tree, the model of `serde_json::Value`. -/
inductive Json where
  | null
  | bool (b : Bool)
  | num (n : JNum)
  | str (s : String)
  | arr (elems : List Json)
  | obj (members : List (String × Json))

/-! ## Rendering (the model of `serde_json::to_string`) -/

/-- JSON-escape one character the way `serde_json` emits strings: `"` and `\`
escaped, the five controls with short escapes, remaining control characters as
`\u00XX`, everything else raw. -/
def escChar (c : Char) : List Char :=
  if c = '"' then ['\\', '"']
  else if c = '\\' then ['\\', '\\']
  else if c = '\n' then ['\\', 'n']
  else if c = '\t' then ['\\', 't']
  else if c = '\r' then ['\\', 'r']
  else if c = '\x08' then ['\\', 'b']
  else if c = '\x0c' then ['\\', 'f']
  else if c.toNat < 32 then
    ['\\', 'u', '0', '0', hexDig (c.toNat / 16), hexDig (c.toNat % 16)]
  else [c]

/-- JSON-escape a character list. -/
def escChars (l : List Char) : List Char := l.flatMap escChar

/-- Render the fraction part of a number literal (nothing when empty). -/
def fracChars : List (Fin 10) → List Char
  | [] => []
  | ds => '.' :: ds.map digitChar

/-- Render the exponent part of a number literal (nothing when absent). -/
def expChars : Option (Bool × Nat) → List Char
  | none => []
  | some (s, e) => 'e' :: ((if s then ['-'] else []) ++ natDigits e)

/-- Render a number literal back to its JSON text. -/
def renderNum (n : JNum) : List Char :=
  (if n.neg then ['-'] else []) ++ natDigits n.ip ++ fracChars n.frac ++
    expChars n.exp

mutual
def renderJson : Json → List Char
  | .null => "null".data
  | .bool true => "true".data
  | .bool false => "false".data
  | .num n => renderNum n
  | .str s => '"' :: (escChars s.data ++ ['"'])
  | .arr xs => '[' :: (renderElems xs ++ [']'])
  | .obj fs => '{' :: (renderMembers fs ++ ['}'])
def renderElems : List Json → List Char
  | [] => []
  | [x] => renderJson x
  | x :: y :: xs => renderJson x ++ ',' :: renderElems (y :: xs)
def renderMembers : List (String × Json) → List Char
  | [] => []
  | [(k, v)] => '"' :: (escChars k.data ++ '"' :: ':' :: renderJson v)
  | (k, v) :: m :: fs =>
    '"' :: (escChars k.data ++ '"' :: ':' :: renderJson v) ++
      ',' :: renderMembers (m :: fs)
end

/-- Render a JSON document to a string (compact, as `serde_json::to_string`). -/
def renderJsonStr (v : Json) : String := String.mk (renderJson v)

/-! ## Parsing (the model of `serde_json::from_str` to a `Value`) -/

/-- Prefix `c` onto the string component of a string-body parse result. -/
def consStr (c : Char) : Option (List Char × List Char) →
    Option (List Char × List Char)
  | some (s, r) => some (c :: s, r)
  | none => none

/-- Four hex digits, as consumed by a `\uXXXX` escape. -/
def parseHex4 : List Char → Option (Nat × List Char)
  | h1 :: h2 :: h3 :: h4 :: r =>
    (match hexVal h1, hexVal h2, hexVal h3, hexVal h4 with
     | some a, some b, some c, some d =>
       some (((a * 16 + b) * 16 + c) * 16 + d, r)
     | _, _, _, _ => none)
  | _ => none

/-- Decode a `\uXXXX` escape after the `\u`: a lone code unit outside the
surrogate range, or a high/low surrogate pair combined, exactly as
`serde_json` does. -/
def parseUEscape (l : List Char) : Option (Char × List Char) :=
  match parseHex4 l with
  | none => none
  | some (code, r) =>
    if 0xD800 ≤ code ∧ code ≤ 0xDBFF then
      match r with
      | b1 :: b2 :: r2 =>
        if b1 = '\\' ∧ b2 = 'u' then
          match parseHex4 r2 with
          | some (code2, r3) =>
            if 0xDC00 ≤ code2 ∧ code2 ≤ 0xDFFF then
              some (Char.ofNat
                (0x10000 + (code - 0xD800) * 0x400 + (code2 - 0xDC00)), r3)
            else none
          | none => none
        else none
      | _ => none
    else if 0xDC00 ≤ code ∧ code ≤ 0xDFFF then none
    else some (Char.ofNat code, r)

/-- Parse the body of a JSON string after the opening quote: literal
characters up to the closing quote, with escape sequences decoded and raw
control characters rejected.  Structural on a fuel that dominates the input
length (one unit per produced character), so the kernel can evaluate it. -/
def parseStringBody : Nat → List Char → Option (List Char × List Char)
  | 0, _ => none
  | _ + 1, [] => none
  | f + 1, c :: r =>
    if c = '"' then some ([], r)
    else if c = '\\' then
      match r with
      | [] => none
      | e :: r2 =>
        if e = '"' then consStr '"' (parseStringBody f r2)
        else if e = '\\' then consStr '\\' (parseStringBody f r2)
        else if e = '/' then consStr '/' (parseStringBody f r2)
        else if e = 'b' then consStr '\x08' (parseStringBody f r2)
        else if e = 'f' then consStr '\x0c' (parseStringBody f r2)
        else if e = 'n' then consStr '\n' (parseStringBody f r2)
        else if e = 'r' then consStr '\r' (parseStringBody f r2)
        else if e = 't' then consStr '\t' (parseStringBody f r2)
        else if e = 'u' then
          match parseUEscape r2 with
          | some (ch, r3) => consStr ch (parseStringBody f r3)
          | none => none
        else none
    else if c.toNat < 32 then none
    else consStr c (parseStringBody f r)

/-- Parse the optional fraction part of a number: a `.` must be followed by at
least one digit. -/
def parseFrac : List Char → Option (List (Fin 10) × List Char)
  | [] => some ([], [])
  | c :: r =>
    if c = '.' then
      let ds := r.takeWhile Char.isDigit
      if ds.isEmpty then none
      else some (ds.map (fun d => (Fin.ofNat (d.toNat - 48) : Fin 10)),
        r.dropWhile Char.isDigit)
    else some ([], c :: r)

/-- Parse the digits of an exponent after `e`/`E` and an optional sign. -/
def parseExpTail : List Char → Option (Option (Bool × Nat) × List Char)
  | [] => none
  | c :: r2 =>
    let sr : Bool × List Char :=
      if c = '-' then (true, r2)
      else if c = '+' then (false, r2)
      else (false, c :: r2)
    let ds := sr.2.takeWhile Char.isDigit
    if ds.isEmpty then none
    else some (some (sr.1, digitsVal ds), sr.2.dropWhile Char.isDigit)

/-- Parse the optional exponent part of a number. -/
def parseExp : List Char → Option (Option (Bool × Nat) × List Char)
  | [] => some (none, [])
  | c :: r =>
    if c = 'e' ∨ c = 'E' then parseExpTail r else some (none, c :: r)

/-- Parse fraction and exponent after the integer part, and assemble. -/
def parseNumTail (neg : Bool) (ip : Nat) (l : List Char) :
    Option (JNum × List Char) :=
  match parseFrac l with
  | none => none
  | some (fr, l3) =>
    match parseExp l3 with
    | none => none
    | some (ex, l4) => some (⟨neg, ip, fr, ex⟩, l4)

/-- Parse the integer part (no leading zero: a literal starting `0` has the
integer part `0`) and then the rest of the number. -/
def parseNumBody (neg : Bool) : List Char → Option (JNum × List Char)
  | [] => none
  | c :: r =>
    if c = '0' then parseNumTail neg 0 r
    else if c.isDigit then
      parseNumTail neg (digitsVal ((c :: r).takeWhile Char.isDigit))
        ((c :: r).dropWhile Char.isDigit)
    else none

/-- Parse a JSON number literal: optional minus, an integer part with no
leading zero, optional fraction and exponent. -/
def parseNumber : List Char → Option (JNum × List Char)
  | [] => none
  | c :: r =>
    if c = '-' then parseNumBody true r else parseNumBody false (c :: r)

/-- Input that cannot extend a number literal to its left: empty, or headed by
a character that is not a digit and none of `.`, `e`, `E`.  Every JSON
delimiter (`,`, `]`, `}`, whitespace, end of input) qualifies. -/
def noNumExt : List Char → Bool
  | [] => true
  | c :: _ => !(c.isDigit || c = '.' || c = 'e' || c = 'E')

/-- Match an expected literal tail (for `true`/`false`/`null`). -/
def matchLit : List Char → List Char → Option (List Char)
  | [], l => some l
  | c :: cs, d :: ds => if c = d then matchLit cs ds else none
  | _ :: _, [] => none

mutual
def parseValue : Nat → List Char → Option (Json × List Char)
  | 0, _ => none
  | f + 1, l =>
    match skipWs l with
    | [] => none
    | c :: r =>
      if c = '{' then
        match skipWs r with
        | [] => none
        | d :: r2 =>
          if d = '}' then some (.obj [], r2)
          else
            match parseMembers f (d :: r2) with
            | some (fs, rest) => some (.obj fs, rest)
            | none => none
      else if c = '[' then
        match skipWs r with
        | [] => none
        | d :: r2 =>
          if d = ']' then some (.arr [], r2)
          else
            match parseElems f (d :: r2) with
            | some (xs, rest) => some (.arr xs, rest)
            | none => none
      else if c = '"' then
        match parseStringBody f r with
        | some (cs, rest) => some (.str (String.mk cs), rest)
        | none => none
      else if c = 't' then
        match matchLit ['r', 'u', 'e'] r with
        | some rest => some (.bool true, rest)
        | none => none
      else if c = 'f' then
        match matchLit ['a', 'l', 's', 'e'] r with
        | some rest => some (.bool false, rest)
        | none => none
      else if c = 'n' then
        match matchLit ['u', 'l', 'l'] r with
        | some rest => some (.null, rest)
        | none => none
      else
        match parseNumber (c :: r) with
        | some (n, rest) => some (.num n, rest)
        | none => none
def parseElems : Nat → List Char → Option (List Json × List Char)
  | 0, _ => none
  | f + 1, l =>
    match parseValue f l with
    | some (v, r) =>
      (match skipWs r with
       | ',' :: r2 =>
         (match parseElems f r2 with
          | some (vs, rest) => some (v :: vs, rest)
          | none => none)
       | ']' :: r2 => some ([v], r2)
       | _ => none)
    | none => none
def parseMembers : Nat → List Char → Option (List (String × Json) × List Char)
  | 0, _ => none
  | f + 1, l =>
    match skipWs l with
    | '"' :: r =>
      (match parseStringBody f r with
       | some (k, r1) =>
         (match skipWs r1 with
          | ':' :: r2 =>
            (match parseValue f r2 with
             | some (v, r3) =>
               (match skipWs r3 with
                | ',' :: r4 =>
                  (match parseMembers f r4 with
                   | some (fs, rest) => some ((String.mk k, v) :: fs, rest)
                   | none => none)
                | '}' :: r4 => some ([(String.mk k, v)], r4)
                | _ => none)
             | none => none)
          | _ => none)
       | none => none)
    | _ => none
end

/-- Parse a complete JSON document from a string, as
`serde_json::from_str::<Value>`: one value, then only whitespace.  Trailing
whitespace is trimmed up front (equivalent, see `dropTrailingWs`); the fuel is
one more than the remaining length, which `parseValue` never exhausts. -/
def parseJsonStr (s : String) : Option Json :=
  let l := dropTrailingWs s.data
  match parseValue (l.length + 1) l with
  | some (v, rest) => if rest.all isJsonWs then some v else none
  | none => none

/-! ## serde field access for derived struct deserializers -/

/-- Look up a field by name (first match, as the streaming deserializer sees
it; duplicates are ruled out separately). -/
def getField : List (String × Json) → String → Option Json
  | [], _ => none
  | (k, v) :: fs, key => if k = key then some v else getField fs key

/-- Whether an object already contains a key. -/
def hasKey : List (String × Json) → String → Bool
  | [], _ => false
  | (k, _) :: fs, key => k = key || hasKey fs key

/-- `serde_json` rejects duplicate object keys for derived structs. -/
def keysNodup : List (String × Json) → Bool
  | [] => true
  | (k, _) :: fs => !hasKey fs k && keysNodup fs

/-- A required field: missing, or failing the field decoder, is an error. -/
def reqField (fs : List (String × Json)) (key : String)
    (dec : Json → Option α) : Option α :=
  (getField fs key).bind dec

/-- An `Option<T>` field: missing or `null` is `none`, otherwise the field
decoder must succeed (serde's derived behaviour). -/
def optField (fs : List (String × Json)) (key : String)
    (dec : Json → Option α) : Option (Option α) :=
  match getField fs key with
  | none => some none
  | some .null => some none
  | some v => (dec v).map some

/-- Decode a `String` field. -/
def asString : Json → Option String
  | .str s => some s
  | _ => none

/-- Decode an `f64` field (any JSON number; the literal is the value). -/
def asF64 : Json → Option JNum
  | .num n => some n
  | _ => none

/-- Decode a `u32` field: a non-negative integer literal below `2^32`
(fractional or exponent notation is an `f64` to serde and rejected here). -/
def asU32 : Json → Option Nat
  | .num n =>
    if n.neg = false ∧ n.frac = [] ∧ n.exp = none ∧ n.ip < 4294967296 then
      some n.ip
    else none
  | _ => none

/-- Decode a `serde_json::Value` field (accepts anything). -/
def asValue : Json → Option Json := fun v => some v

/-- Decode a `Vec<serde_json::Value>` field. -/
def asArr : Json → Option (List Json)
  | .arr xs => some xs
  | _ => none

/-- Decode every element of a list or fail (serde's `Vec<T>`). -/
def decodeList (dec : Json → Option α) : List Json → Option (List α)
  | [] => some []
  | x :: xs =>
    match dec x with
    | some a =>
      (match decodeList dec xs with
       | some as_ => some (a :: as_)
       | none => none)
    | none => none

/-- Decode a `Vec<String>` field. -/
def asStringList (j : Json) : Option (List String) :=
  (asArr j).bind (decodeList asString)

/-! ## The result structs (from `lib.rs`, with `u32` as range-checked `Nat`
and `f64` as the exact decimal literal `JNum`) -/

structure AnalysisResults where
  timestamp : String
  analysis_id : String
  data_summary : Json
  clustering_results : Json
  consensus : Json
  recommendations : List Json
  analysis_duration_seconds : Option JNum
  error : Option String

structure SystemMetrics where
  events_today : Nat
  active_agents : Nat
  clustering_status : String
  memory_usage : JNum
  cpu_usage : Option JNum
  last_analysis : Option String

structure ChatMessage where
  content : String
  agent_name : String
  specialization : String
  confidence : JNum
  suggested_actions : List String

structure ChatResponse where
  session_id : String
  response : ChatMessage
  error : Option String

structure ChatSession where
  session_id : String
  start_time : JNum
  duration : JNum
  message_count : Nat
  active_agents : List String
  messages : List ChatMessage

/-! ## Derived serializers (field order as declared in the Rust structs;
`None` serializes as `null`) -/

def encOpt (f : α → Json) : Option α → Json
  | none => .null
  | some x => f x

def encodeAnalysisResults (r : AnalysisResults) : Json :=
  .obj [("timestamp", .str r.timestamp),
        ("analysis_id", .str r.analysis_id),
        ("data_summary", r.data_summary),
        ("clustering_results", r.clustering_results),
        ("consensus", r.consensus),
        ("recommendations", .arr r.recommendations),
        ("analysis_duration_seconds", encOpt Json.num r.analysis_duration_seconds),
        ("error", encOpt Json.str r.error)]

def natNum (n : Nat) : Json := .num ⟨false, n, [], none⟩

def encodeSystemMetrics (m : SystemMetrics) : Json :=
  .obj [("events_today", natNum m.events_today),
        ("active_agents", natNum m.active_agents),
        ("clustering_status", .str m.clustering_status),
        ("memory_usage", .num m.memory_usage),
        ("cpu_usage", encOpt Json.num m.cpu_usage),
        ("last_analysis", encOpt Json.str m.last_analysis)]

def encodeChatMessage (m : ChatMessage) : Json :=
  .obj [("content", .str m.content),
        ("agent_name", .str m.agent_name),
        ("specialization", .str m.specialization),
        ("confidence", .num m.confidence),
        ("suggested_actions", .arr (m.suggested_actions.map Json.str))]

def encodeChatSession (s : ChatSession) : Json :=
  .obj [("session_id", .str s.session_id),
        ("start_time", .num s.start_time),
        ("duration", .num s.duration),
        ("message_count", natNum s.message_count),
        ("active_agents", .arr (s.active_agents.map Json.str)),
        ("messages", .arr (s.messages.map encodeChatMessage))]

/-! ## Derived deserializers -/

def decodeAnalysisResults (j : Json) : Option AnalysisResults :=
  match j with
  | .obj fs =>
    if keysNodup fs then
      (reqField fs "timestamp" asString).bind fun timestamp =>
      (reqField fs "analysis_id" asString).bind fun analysis_id =>
      (reqField fs "data_summary" asValue).bind fun data_summary =>
      (reqField fs "clustering_results" asValue).bind fun clustering_results =>
      (reqField fs "consensus" asValue).bind fun consensus =>
      (reqField fs "recommendations" asArr).bind fun recommendations =>
      (optField fs "analysis_duration_seconds" asF64).bind fun dur =>
      (optField fs "error" asString).bind fun err =>
      some ⟨timestamp, analysis_id, data_summary, clustering_results,
        consensus, recommendations, dur, err⟩
    else none
  | _ => none

def decodeSystemMetrics (j : Json) : Option SystemMetrics :=
  match j with
  | .obj fs =>
    if keysNodup fs then
      (reqField fs "events_today" asU32).bind fun events_today =>
      (reqField fs "active_agents" asU32).bind fun active_agents =>
      (reqField fs "clustering_status" asString).bind fun clustering_status =>
      (reqField fs "memory_usage" asF64).bind fun memory_usage =>
      (optField fs "cpu_usage" asF64).bind fun cpu_usage =>
      (optField fs "last_analysis" asString).bind fun last_analysis =>
      some ⟨events_today, active_agents, clustering_status, memory_usage,
        cpu_usage, last_analysis⟩
    else none
  | _ => none

def decodeChatMessage (j : Json) : Option ChatMessage :=
  match j with
  | .obj fs =>
    if keysNodup fs then
      (reqField fs "content" asString).bind fun content =>
      (reqField fs "agent_name" asString).bind fun agent_name =>
      (reqField fs "specialization" asString).bind fun specialization =>
      (reqField fs "confidence" asF64).bind fun confidence =>
      (reqField fs "suggested_actions" asStringList).bind fun actions =>
      some ⟨content, agent_name, specialization, confidence, actions⟩
    else none
  | _ => none

def decodeChatResponse (j : Json) : Option ChatResponse :=
  match j with
  | .obj fs =>
    if keysNodup fs then
      (reqField fs "session_id" asString).bind fun session_id =>
      (reqField fs "response" decodeChatMessage).bind fun response =>
      (optField fs "error" asString).bind fun err =>
      some ⟨session_id, response, err⟩
    else none
  | _ => none

def decodeChatSession (j : Json) : Option ChatSession :=
  match j with
  | .obj fs =>
    if keysNodup fs then
      (reqField fs "session_id" asString).bind fun session_id =>
      (reqField fs "start_time" asF64).bind fun start_time =>
      (reqField fs "duration" asF64).bind fun duration =>
      (reqField fs "message_count" asU32).bind fun message_count =>
      (reqField fs "active_agents" asStringList).bind fun active_agents =>
      (reqField fs "messages"
        (fun v => (asArr v).bind (decodeList decodeChatMessage))).bind
        fun messages =>
      some ⟨session_id, start_time, duration, message_count, active_agents,
        messages⟩
    else none
  | _ => none

/-! ## `serde_json::to_string` / `from_str` at each struct type -/

def analysisToString (r : AnalysisResults) : String :=
  renderJsonStr (encodeAnalysisResults r)

def analysisFromStr (s : String) : Option AnalysisResults :=
  (parseJsonStr s).bind decodeAnalysisResults

def metricsToString (m : SystemMetrics) : String :=
  renderJsonStr (encodeSystemMetrics m)

def metricsFromStr (s : String) : Option SystemMetrics :=
  (parseJsonStr s).bind decodeSystemMetrics

def sessionToString (s : ChatSession) : String :=
  renderJsonStr (encodeChatSession s)

def sessionFromStr (s : String) : Option ChatSession :=
  (parseJsonStr s).bind decodeChatSession

def chatResponseFromStr (s : String) : Option ChatResponse :=
  (parseJsonStr s).bind decodeChatResponse

/-! ## The subprocess layer

`std::process::Command::output()` is modelled by an oracle mapping the
constructed request (program, arguments, working directory) to either a spawn
error or a completed `Output`. -/

structure InvocationRequest where
  program : String
  args : List String
  current_dir : String

structure Output where
  code : Nat
  stdout : String
  stderr : String

/-- `ExitStatus::success()`: exit code zero. -/
def Output.success (o : Output) : Bool := o.code == 0

inductive SpawnResult where
  | err (msg : String)
  | ok (output : Output)

/-- The environment's behaviour for one invocation. -/
def World := InvocationRequest → SpawnResult

/-- Rust `str::trim` restricted to the ASCII whitespace characters relevant
here (Rust trims by the Unicode `White_Space` property; the sources only ever
meet ASCII output). -/
def isRustWs (c : Char) : Bool :=
  c = ' ' || c = '\t' || c = '\n' || c = '\r' || c = '\x0b' || c = '\x0c'

/-- Model of Rust `str::trim().to_string()`. -/
def rustTrim (s : String) : String :=
  String.mk (((s.data.dropWhile isRustWs).reverse.dropWhile isRustWs).reverse)

/-! ## Chat script construction (`send_chat_message`, `get_chat_history`)

The Rust source embeds the message and session id into a Python inline script
with `format!`, escaping only double quotes in the message:
`message.replace("\"", "\\\"")`. -/

/-- `message.replace("\"", "\\\"")` from the source: every `"` becomes `\"`
(single-character pattern, so replacement is per character). -/
def escapeMessage (message : String) : String :=
  String.mk (message.data.flatMap fun c =>
    if c = '"' then ['\\', '"'] else [c])

/-- The argument text spliced into `system.chat_with_agents({}, {})` by
`send_chat_message`: the escaped message and the session id, each wrapped in
double quotes, separated by a comma. -/
def embeddedArgs (message session_id : String) : String :=
  "\"" ++ escapeMessage message ++ "\", \"" ++ session_id ++ "\""

/-- The inline script `start_chat_session` passes to `python -c`. -/
def startChatScript : String :=
  "\nimport asyncio\nfrom backend.app.system.system_integration import CelFlowSystemIntegration\n\nasync def start_session():\n    system = CelFlowSystemIntegration()\n    await system.initialize()\n    result = await system.chat_with_agents(\"\", None)\n    print(result.get(\"session_id\", \"\"))\n\nasyncio.run(start_session())\n        "

/-- The inline script `send_chat_message` passes to `python -c`, with the
escaped message and the session id spliced in by `format!`. -/
def sendChatScript (message session_id : String) : String :=
  "\nimport asyncio\nimport json\nfrom backend.app.system.system_integration import CelFlowSystemIntegration\n\nasync def send_message():\n    system = CelFlowSystemIntegration()\n    await system.initialize()\n    result = await system.chat_with_agents(" ++
    embeddedArgs message session_id ++
    ")\n    print(json.dumps(result))\n\nasyncio.run(send_message())\n        "

/-- The inline script `get_chat_history` passes to `python -c`, with the
session id spliced in by `format!` (unescaped, as in the source). -/
def historyScript (session_id : String) : String :=
  "\nimport asyncio\nimport json\nfrom backend.app.system.system_integration import CelFlowSystemIntegration\n\nasync def get_history():\n    system = CelFlowSystemIntegration()\n    await system.initialize()\n    if system.agent_interface:\n        history = system.agent_interface.get_session_history(\"" ++
    session_id ++
    "\")\n        print(json.dumps(history))\n    else:\n        print(json.dumps(\x7b\x7d))\n\nasyncio.run(get_history())\n        "

/-! ## The six Tauri commands (pure core, parameterised by the `World`) -/

def get_latest_analysis (world : World) (python_path : String) :
    Except String AnalysisResults :=
  match world ⟨python_path,
      ["app/analytics/advanced_clustering_engine.py", "--export-json"],
      "../"⟩ with
  | .err e => .error ("Failed to execute Python script: " ++ e)
  | .ok output =>
    if !output.success then
      .error ("Python script failed: " ++ output.stderr)
    else
      match analysisFromStr output.stdout with
      | some results => .ok results
      | none => .error "Failed to parse JSON"

def get_system_metrics : Except String SystemMetrics :=
  .ok ⟨8542, 2, "Active", ⟨false, 245, [6], none⟩,
    some ⟨false, 12, [3], none⟩, some "2 minutes ago"⟩

def trigger_analysis (world : World) (python_path : String) :
    Except String String :=
  match world ⟨python_path,
      ["app/analytics/advanced_clustering_engine.py", "--force-analysis"],
      "../"⟩ with
  | .err e => .error ("Failed to execute Python script: " ++ e)
  | .ok output =>
    if !output.success then
      .error ("Analysis failed: " ++ output.stderr)
    else
      .ok "Analysis triggered successfully"

def start_chat_session (world : World) (python_path : String) :
    Except String String :=
  match world ⟨python_path, ["-c", startChatScript], "../"⟩ with
  | .err e => .error ("Failed to start chat session: " ++ e)
  | .ok output =>
    if !output.success then
      .error ("Failed to start chat session: " ++ output.stderr)
    else
      .ok (rustTrim output.stdout)

def send_chat_message (world : World)
    (python_path message session_id : String) : Except String ChatResponse :=
  match world ⟨python_path, ["-c", sendChatScript message session_id],
      "../"⟩ with
  | .err e => .error ("Failed to send message: " ++ e)
  | .ok output =>
    if !output.success then
      .error ("Failed to send message: " ++ output.stderr)
    else
      match chatResponseFromStr output.stdout with
      | some resp => .ok resp
      | none => .error "Failed to parse response"

def get_chat_history (world : World) (python_path session_id : String) :
    Except String ChatSession :=
  match world ⟨python_path, ["-c", historyScript session_id], "../"⟩ with
  | .err e => .error ("Failed to get chat history: " ++ e)
  | .ok output =>
    if !output.success then
      .error ("Failed to get chat history: " ++ output.stderr)
    else
      match sessionFromStr output.stdout with
      | some session => .ok session
      | none => .error "Failed to parse chat history"

/-! ## The runtime locator (`detect_python_path`) -/

/-- One probe: `Command::new(candidate).arg("--version").output()` succeeded
with exit code zero. -/
def probeOk (probe : String → SpawnResult) (candidate : String) : Bool :=
  match probe candidate with
  | .ok output => output.success
  | .err _ => false

/-- The `for candidate in candidates` loop: first candidate whose probe
succeeds, else the hardcoded `"python3"` fallback. -/
def detectFirst (probe : String → SpawnResult) : List String → String
  | [] => "python3"
  | c :: rest => if probeOk probe c then c else detectFirst probe rest

/-- `detectFirst`, additionally recording which candidates were probed, in
order (the loop body runs one probe per visited candidate). -/
def detectFirstTrace (probe : String → SpawnResult) :
    List String → String × List String
  | [] => ("python3", [])
  | c :: rest =>
    if probeOk probe c then (c, [c])
    else
      let t := detectFirstTrace probe rest
      (t.1, c :: t.2)

/-- The candidate list of `src/frontend/desktop/src-tauri/src/lib.rs`. -/
def pythonCandidates : List String :=
  ["python3", "python", "./celflow_env/bin/python",
   "./celflow_env/Scripts/python.exe"]

/-- The candidate list of `src/selflow-desktop/src-tauri/src/lib.rs`. -/
def selflowCandidates : List String :=
  ["python3", "python", "./selflow_env/bin/python",
   "./selflow_env/Scripts/python.exe"]

def detect_python_path (probe : String → SpawnResult) : String :=
  detectFirst probe pythonCandidates

def detect_python_path_selflow (probe : String → SpawnResult) : String :=
  detectFirst probe selflowCandidates

/-! ## The managed state (`AppState`) and the state-threaded commands

Each `#[tauri::command]` receives `State<AppState>`, locks the
`Mutex<String>` to read the cached interpreter path, and never writes it; the
state-threaded wrappers make that explicit by returning the state they were
given, exactly as the straight-line Rust bodies do. -/

structure AppState where
  python_path : String

def get_latest_analysisSt (world : World) (state : AppState) :
    Except String AnalysisResults × AppState :=
  let python_path := state.python_path
  (get_latest_analysis world python_path, state)

def trigger_analysisSt (world : World) (state : AppState) :
    Except String String × AppState :=
  let python_path := state.python_path
  (trigger_analysis world python_path, state)

def start_chat_sessionSt (world : World) (state : AppState) :
    Except String String × AppState :=
  let python_path := state.python_path
  (start_chat_session world python_path, state)

def send_chat_messageSt (world : World) (state : AppState)
    (message session_id : String) : Except String ChatResponse × AppState :=
  let python_path := state.python_path
  (send_chat_message world python_path message session_id, state)

def get_chat_historySt (world : World) (state : AppState)
    (session_id : String) : Except String ChatSession × AppState :=
  let python_path := state.python_path
  (get_chat_history world python_path session_id, state)

/-! ## The consuming layer of the chat scripts: Python string literals

`python -c` receives the script text; a double-quoted (non-raw) Python string
literal is what re-reads the embedded message.  The parser below follows the
CPython lexer for `"..."` literals: the quote ends the literal, raw newlines
are a syntax error, and backslash escapes are decoded (`\newline` line
continuation, the simple escapes, octal, `\xHH`, `\uHHHH`, `\UHHHHHHHH`).
Two departures, both irrelevant to every input used here: `\N{NAME}` escapes
would need the Unicode name database and are modelled as a parse failure, and
`\u`/`\U` codes Lean's `Char` cannot represent (lone surrogates) are likewise
a failure. -/

/-- The single-character Python escapes. -/
def pyEscChar : Char → Option Char
  | '\\' => some '\\'
  | '\x27' => some '\x27'
  | '"' => some '"'
  | 'a' => some '\x07'
  | 'b' => some '\x08'
  | 'f' => some '\x0c'
  | 'n' => some '\n'
  | 'r' => some '\r'
  | 't' => some '\t'
  | 'v' => some '\x0b'
  | _ => none

/-- Octal digit? -/
def isOct (c : Char) : Bool := 48 ≤ c.toNat && c.toNat ≤ 55

/-- Value of an octal digit character. -/
def octVal (c : Char) : Nat := c.toNat - 48

/-- A Unicode scalar `Char` from a code point, if representable. -/
def charOfCode (code : Nat) : Option Char :=
  if code < 0xD800 ∨ (0xE000 ≤ code ∧ code < 0x110000) then
    some (Char.ofNat code)
  else none

/-- Continue a string-body parse after producing one character. -/
def pyCons (c : Char) : Option (List Char × List Char) →
    Option (List Char × List Char)
  | some (s, r) => some (c :: s, r)
  | none => none

/-- Continue a string-body parse after an escape that produced `code`. -/
def pyConsCode (code : Nat) (k : Option (List Char × List Char)) :
    Option (List Char × List Char) :=
  match charOfCode code with
  | some c => pyCons c k
  | none => none

/-- Parse the body of a Python double-quoted string literal after the opening
quote, returning the decoded contents and the input following the closing
quote. -/
def pyStrBody : List Char → Option (List Char × List Char)
  | [] => none
  | '"' :: r => some ([], r)
  | '\n' :: _ => none
  | '\r' :: _ => none
  | '\\' :: '\n' :: r => pyStrBody r
  | '\\' :: 'x' :: a :: b :: r =>
    (match hexVal a, hexVal b with
     | some va, some vb => pyConsCode (va * 16 + vb) (pyStrBody r)
     | _, _ => none)
  | '\\' :: 'x' :: _ => none
  | '\\' :: 'u' :: a :: b :: c :: d :: r =>
    (match hexVal a, hexVal b, hexVal c, hexVal d with
     | some va, some vb, some vc, some vd =>
       pyConsCode (((va * 16 + vb) * 16 + vc) * 16 + vd) (pyStrBody r)
     | _, _, _, _ => none)
  | '\\' :: 'u' :: _ => none
  | '\\' :: 'U' :: a :: b :: c :: d :: e :: f :: g :: h :: r =>
    (match hexVal a, hexVal b, hexVal c, hexVal d,
        hexVal e, hexVal f, hexVal g, hexVal h with
     | some va, some vb, some vc, some vd, some ve, some vf, some vg, some vh =>
       pyConsCode
         (((((((va * 16 + vb) * 16 + vc) * 16 + vd) * 16 + ve) * 16 + vf) *
            16 + vg) * 16 + vh)
         (pyStrBody r)
     | _, _, _, _, _, _, _, _ => none)
  | '\\' :: 'U' :: _ => none
  | '\\' :: 'N' :: _ => none
  | '\\' :: c1 :: c2 :: c3 :: r =>
    if isOct c1 then
      if isOct c2 then
        if isOct c3 then
          pyConsCode ((octVal c1 * 8 + octVal c2) * 8 + octVal c3)
            (pyStrBody r)
        else pyConsCode (octVal c1 * 8 + octVal c2) (pyStrBody (c3 :: r))
      else pyConsCode (octVal c1) (pyStrBody (c2 :: c3 :: r))
    else
      match pyEscChar c1 with
      | some ch => pyCons ch (pyStrBody (c2 :: c3 :: r))
      | none => pyCons '\\' (pyCons c1 (pyStrBody (c2 :: c3 :: r)))
  | '\\' :: c1 :: c2 :: [] =>
    if isOct c1 then
      if isOct c2 then pyConsCode (octVal c1 * 8 + octVal c2) (pyStrBody [])
      else pyConsCode (octVal c1) (pyStrBody [c2])
    else
      match pyEscChar c1 with
      | some ch => pyCons ch (pyStrBody [c2])
      | none => pyCons '\\' (pyCons c1 (pyStrBody [c2]))
  | '\\' :: c1 :: [] =>
    if isOct c1 then pyConsCode (octVal c1) (pyStrBody [])
    else
      match pyEscChar c1 with
      | some ch => pyCons ch (pyStrBody [])
      | none => pyCons '\\' (pyCons c1 (pyStrBody []))
  | '\\' :: [] => none
  | c :: r => pyCons c (pyStrBody r)

/-- Parse a Python double-quoted string literal from the head of the input. -/
def pyParseStrLit : List Char → Option (List Char × List Char)
  | '"' :: r => pyStrBody r
  | _ => none

/-! # Groundwork lemmas -/

theorem digitChar_spec (k : Fin 10) :
    (digitChar k).isDigit = true ∧ (digitChar k).toNat = 48 + k.val := by
  revert k; decide

theorem digit_not_special {c : Char} (hc : c.isDigit = true) :
    isJsonWs c = false ∧ c ≠ '{' ∧ c ≠ '[' ∧ c ≠ '"' ∧ c ≠ 't' ∧ c ≠ 'f' ∧
      c ≠ 'n' ∧ c ≠ ']' ∧ c ≠ '}' ∧ c ≠ ',' ∧ c ≠ ':' ∧ c ≠ '-' ∧ c ≠ '+' ∧
      c ≠ '.' ∧ c ≠ 'e' ∧ c ≠ 'E' ∧ c ≠ '\\' := by
  refine ⟨?_, ?_, ?_, ?_, ?_, ?_, ?_, ?_, ?_, ?_, ?_, ?_, ?_, ?_, ?_, ?_, ?_⟩
  · simp only [isJsonWs, Bool.or_eq_false_iff, decide_eq_false_iff_not]
    refine ⟨⟨⟨?_, ?_⟩, ?_⟩, ?_⟩ <;> (rintro rfl; exact absurd hc (by decide))
  all_goals (rintro rfl; exact absurd hc (by decide))

theorem natDigitsF_congr : ∀ f g n : Nat, n < f → n < g →
    natDigitsF f n = natDigitsF g n := by
  intro f
  induction f with
  | zero => intro g n hf _; exact absurd hf (Nat.not_lt_zero n)
  | succ f ih =>
    intro g n hf hg
    cases g with
    | zero => exact absurd hg (Nat.not_lt_zero n)
    | succ g0 =>
      simp only [natDigitsF]
      by_cases h10 : n < 10
      · simp [h10]
      · simp only [if_neg h10]
        have hd : n / 10 < n := Nat.div_lt_self (by omega) (by omega)
        rw [ih g0 (n / 10) (by omega) (by omega)]

theorem natDigits_eq (n : Nat) : natDigits n =
    if n < 10 then [Char.ofNat (48 + n)]
    else natDigits (n / 10) ++ [Char.ofNat (48 + n % 10)] := by
  show natDigitsF (n + 1) n = _
  simp only [natDigitsF]
  by_cases h10 : n < 10
  · simp [h10]
  · simp only [if_neg h10]
    have hd : n / 10 < n := Nat.div_lt_self (by omega) (by omega)
    rw [natDigitsF_congr n (n / 10 + 1) (n / 10) (by omega) (by omega)]
    rfl

theorem natDigits_all_digit (n : Nat) : ∀ c ∈ natDigits n, c.isDigit = true := by
  induction n using Nat.strongRecOn with
  | _ n ih =>
    rw [natDigits_eq]
    by_cases h10 : n < 10
    · simp only [if_pos h10, List.mem_singleton]
      rintro c rfl
      exact (digitChar_spec ⟨n, h10⟩).1
    · simp only [if_neg h10, List.mem_append, List.mem_singleton]
      rintro c (hc | rfl)
      · exact ih (n / 10) (Nat.div_lt_self (by omega) (by omega)) c hc
      · exact (digitChar_spec ⟨n % 10, by omega⟩).1

theorem natDigits_ne_nil (n : Nat) : natDigits n ≠ [] := by
  rw [natDigits_eq]; split <;> simp

theorem natDigits_head (n : Nat) :
    ∃ c t, natDigits n = c :: t ∧ c.isDigit = true ∧ (0 < n → c ≠ '0') := by
  induction n using Nat.strongRecOn with
  | _ n ih =>
    by_cases h10 : n < 10
    · refine ⟨Char.ofNat (48 + n), [], by rw [natDigits_eq]; simp [h10],
        (digitChar_spec ⟨n, h10⟩).1, ?_⟩
      intro hn heq
      have h2 := congrArg Char.toNat heq
      rw [show (Char.ofNat (48 + n)).toNat = 48 + n from
        (digitChar_spec ⟨n, h10⟩).2] at h2
      have h0 : ('0' : Char).toNat = 48 := by decide
      omega
    · obtain ⟨c, t, hct, hcd, hz⟩ :=
        ih (n / 10) (Nat.div_lt_self (by omega) (by omega))
      refine ⟨c, t ++ [Char.ofNat (48 + n % 10)], ?_, hcd,
        fun _ => hz (by omega)⟩
      rw [natDigits_eq, if_neg h10, hct]
      rfl

theorem natDigits_last (n : Nat) :
    ∃ t d, natDigits n = t ++ [d] ∧ d.isDigit = true := by
  rw [natDigits_eq]
  by_cases h10 : n < 10
  · exact ⟨[], Char.ofNat (48 + n), by simp [h10],
      (digitChar_spec ⟨n, h10⟩).1⟩
  · exact ⟨natDigits (n / 10), Char.ofNat (48 + n % 10), by simp [h10],
      (digitChar_spec ⟨n % 10, by omega⟩).1⟩

theorem digitsVal_natDigits (n : Nat) : digitsVal (natDigits n) = n := by
  induction n using Nat.strongRecOn with
  | _ n ih =>
    rw [natDigits_eq]
    by_cases h10 : n < 10
    · simp only [if_pos h10, digitsVal, List.foldl_cons, List.foldl_nil]
      rw [show (Char.ofNat (48 + n)).toNat = 48 + n from
        (digitChar_spec ⟨n, h10⟩).2]
      omega
    · simp only [if_neg h10, digitsVal, List.foldl_append, List.foldl_cons,
        List.foldl_nil]
      have h1 := ih (n / 10) (Nat.div_lt_self (by omega) (by omega))
      rw [digitsVal] at h1
      rw [h1, show (Char.ofNat (48 + n % 10)).toNat = 48 + n % 10 from
        (digitChar_spec ⟨n % 10, by omega⟩).2]
      omega

theorem dropWhile_eq_self_of_takeWhile_nil {p : Char → Bool} :
    ∀ {l : List Char}, l.takeWhile p = [] → l.dropWhile p = l
  | [], _ => rfl
  | c :: t, h => by
    rw [List.takeWhile_cons] at h
    by_cases hp : p c
    · simp [hp] at h
    · simp [List.dropWhile_cons, hp]

theorem span_digits {ds : List Char} (hds : ∀ c ∈ ds, c.isDigit = true)
    {rest : List Char} (hrest : rest.takeWhile Char.isDigit = []) :
    (ds ++ rest).takeWhile Char.isDigit = ds ∧
      (ds ++ rest).dropWhile Char.isDigit = rest := by
  induction ds with
  | nil =>
    exact ⟨by simpa using hrest,
      by simpa using dropWhile_eq_self_of_takeWhile_nil hrest⟩
  | cons c t ih =>
    have hc : c.isDigit = true := hds c (by simp)
    have ht := ih (fun x hx => hds x (by simp [hx]))
    constructor
    · simp [List.takeWhile_cons, hc, ht.1]
    · simp [List.dropWhile_cons, hc, ht.2]

theorem noNumExt_head {c : Char} {t : List Char}
    (h : noNumExt (c :: t) = true) :
    c.isDigit = false ∧ c ≠ '.' ∧ c ≠ 'e' ∧ c ≠ 'E' := by
  simp only [noNumExt, Bool.not_eq_true', Bool.or_eq_false_iff,
    decide_eq_false_iff_not] at h
  exact ⟨h.1.1.1, h.1.1.2, h.1.2, h.2⟩

theorem noNumExt_takeWhile {l : List Char} (h : noNumExt l = true) :
    l.takeWhile Char.isDigit = [] := by
  cases l with
  | nil => rfl
  | cons c t => simp [List.takeWhile_cons, (noNumExt_head h).1]

theorem noNumExt_of_not_special {c : Char} {t : List Char}
    (h1 : c.isDigit = false) (h2 : c ≠ '.') (h3 : c ≠ 'e') (h4 : c ≠ 'E') :
    noNumExt (c :: t) = true := by
  simp [noNumExt, h1, h2, h3, h4]

theorem skipWs_cons {c : Char} {l : List Char} (h : isJsonWs c = false) :
    skipWs (c :: l) = c :: l := by
  simp [skipWs, List.dropWhile_cons, h]

theorem dropWhile_append_all {p : Char → Bool} {w : List Char}
    (h : ∀ c ∈ w, p c = true) (l : List Char) :
    (w ++ l).dropWhile p = l.dropWhile p := by
  induction w with
  | nil => rfl
  | cons c t ih =>
    rw [List.cons_append, List.dropWhile_cons, if_pos (h c (by simp))]
    exact ih (fun x hx => h x (by simp [hx]))

theorem dropTrailingWs_append_ws {l w : List Char}
    (h : ∀ c ∈ w, isJsonWs c = true) :
    dropTrailingWs (l ++ w) = dropTrailingWs l := by
  unfold dropTrailingWs
  rw [List.reverse_append,
    dropWhile_append_all (fun c hc => h c (List.mem_reverse.mp hc))]

theorem dropTrailingWs_of_last {l : List Char} {c : Char}
    (h : isJsonWs c = false) : dropTrailingWs (l ++ [c]) = l ++ [c] := by
  unfold dropTrailingWs
  rw [List.reverse_append]
  simp [List.dropWhile_cons, h]

theorem hexVal_hexDig (n : Fin 16) : hexVal (hexDig n.val) = some n.val := by
  revert n; decide


theorem parseStringBody_escChar (f : Nat) (c : Char) (rest : List Char) :
    parseStringBody (f + 1) (escChar c ++ rest) =
      consStr c (parseStringBody f rest) := by
  by_cases h1 : c = '"'
  · subst h1; simp [escChar, parseStringBody]
  by_cases h2 : c = '\\'
  · subst h2; simp [escChar, parseStringBody]
  by_cases h3 : c = '\n'
  · subst h3; simp [escChar, parseStringBody]
  by_cases h4 : c = '\t'
  · subst h4; simp [escChar, parseStringBody]
  by_cases h5 : c = '\r'
  · subst h5; simp [escChar, parseStringBody]
  by_cases h6 : c = '\x08'
  · subst h6; simp [escChar, parseStringBody]
  by_cases h7 : c = '\x0c'
  · subst h7; simp [escChar, parseStringBody]
  by_cases hlt : c.toNat < 32
  · rw [escChar, if_neg h1, if_neg h2, if_neg h3, if_neg h4, if_neg h5,
      if_neg h6, if_neg h7, if_pos hlt]
    show parseStringBody (f + 1)
      ('\\' :: 'u' :: '0' :: '0' :: hexDig (c.toNat / 16) ::
        hexDig (c.toNat % 16) :: rest) = _
    have e0 : hexVal '0' = some 0 := by decide
    have ehi : hexVal (hexDig (c.toNat / 16)) = some (c.toNat / 16) :=
      hexVal_hexDig ⟨c.toNat / 16, by omega⟩
    have elo : hexVal (hexDig (c.toNat % 16)) = some (c.toNat % 16) :=
      hexVal_hexDig ⟨c.toNat % 16, by omega⟩
    have hu : parseUEscape ('0' :: '0' :: hexDig (c.toNat / 16) ::
        hexDig (c.toNat % 16) :: rest) = some (c, rest) := by
      simp only [parseUEscape, parseHex4, e0, ehi, elo]
      have hcode : ((0 * 16 + 0) * 16 + c.toNat / 16) * 16 + c.toNat % 16 =
          c.toNat := by omega
      simp only [hcode]
      rw [if_neg (by omega), if_neg (by omega), Char.ofNat_toNat]
    simp [parseStringBody, hu]
  · rw [escChar, if_neg h1, if_neg h2, if_neg h3, if_neg h4, if_neg h5,
      if_neg h6, if_neg h7, if_neg hlt]
    show parseStringBody (f + 1) (c :: rest) = _
    simp only [parseStringBody]
    rw [if_neg h1, if_neg h2, if_neg hlt]

theorem parseStringBody_escChars (s : List Char) :
    ∀ (f : Nat) (rest : List Char), s.length < f →
      parseStringBody f (escChars s ++ '"' :: rest) = some (s, rest) := by
  induction s with
  | nil =>
    intro f rest hf
    cases f with
    | zero => omega
    | succ f0 => simp [escChars, parseStringBody]
  | cons c t ih =>
    intro f rest hf
    cases f with
    | zero => omega
    | succ f0 =>
      rw [escChars, List.flatMap_cons, List.append_assoc]
      rw [show List.flatMap t escChar = escChars t from rfl]
      rw [parseStringBody_escChar, ih f0 rest (by simpa using hf)]
      rfl

theorem finOfNat_digitChar (d : Fin 10) :
    (Fin.ofNat ((digitChar d).toNat - 48) : Fin 10) = d := by
  revert d; decide

theorem map_digitChar_inv (ds : List (Fin 10)) :
    (ds.map digitChar).map (fun c => (Fin.ofNat (c.toNat - 48) : Fin 10)) =
      ds := by
  induction ds with
  | nil => rfl
  | cons d t ih => simp [finOfNat_digitChar, ih]

theorem takeWhile_digit_nil_of_head {c : Char} {t : List Char}
    (h : c.isDigit = false) : (c :: t).takeWhile Char.isDigit = [] := by
  simp [List.takeWhile_cons, h]

theorem parseExp_render (ex : Option (Bool × Nat)) (rest : List Char)
    (hr : noNumExt rest = true) :
    parseExp (expChars ex ++ rest) = some (ex, rest) := by
  match ex with
  | none =>
    cases rest with
    | nil => rfl
    | cons c t =>
      obtain ⟨hd, _, he, hE⟩ := noNumExt_head hr
      show parseExp (c :: t) = _
      simp only [parseExp]
      rw [if_neg (by simp [he, hE])]
  | some (s, e) =>
    show parseExp ('e' :: ((if s then ['-'] else []) ++ natDigits e ++ rest)) = _
    simp only [parseExp]
    rw [if_pos (Or.inl trivial)]
    obtain ⟨sp, hsp⟩ := span_digits (natDigits_all_digit e)
      (noNumExt_takeWhile hr)
    cases s with
    | true =>
      show parseExpTail ('-' :: (natDigits e ++ rest)) = _
      simp only [parseExpTail, ite_true]
      simp [sp, hsp, digitsVal_natDigits, List.isEmpty_iff, natDigits_ne_nil e]
    | false =>
      obtain ⟨c, t, hct, hcd, _⟩ := natDigits_head e
      have hspec := digit_not_special hcd
      show parseExpTail (natDigits e ++ rest) = _
      rw [hct, List.cons_append]
      simp only [parseExpTail]
      rw [if_neg hspec.2.2.2.2.2.2.2.2.2.2.2.1,
        if_neg hspec.2.2.2.2.2.2.2.2.2.2.2.2.1]
      have sp2 : (c :: (t ++ rest)).takeWhile Char.isDigit = c :: t := by
        rw [← List.cons_append, ← hct]; exact sp
      have hsp2 : (c :: (t ++ rest)).dropWhile Char.isDigit = rest := by
        rw [← List.cons_append, ← hct]; exact hsp
      simp only [sp2, hsp2]
      rw [if_neg (by simp), show c :: t = natDigits e from hct.symm,
        digitsVal_natDigits]

theorem parseFrac_render (fr : List (Fin 10)) (tail : List Char)
    (htail : tail.takeWhile Char.isDigit = [])
    (hdot : ∀ c t, tail = c :: t → c ≠ '.') :
    parseFrac (fracChars fr ++ tail) = some (fr, tail) := by
  match fr with
  | [] =>
    cases tail with
    | nil => rfl
    | cons c t =>
      show parseFrac (c :: t) = _
      simp only [parseFrac]
      rw [if_neg (hdot c t rfl)]
  | d :: ds =>
    show parseFrac ('.' :: ((d :: ds).map digitChar ++ tail)) = _
    simp only [parseFrac, ite_true]
    have hall : ∀ c ∈ (d :: ds).map digitChar, c.isDigit = true := by
      intro c hc
      obtain ⟨k, _, rfl⟩ := List.mem_map.mp hc
      exact (digitChar_spec k).1
    obtain ⟨sp, hsp⟩ := span_digits hall htail
    simp only [List.map_cons, List.cons_append] at sp hsp ⊢
    simp only [sp, hsp]
    rw [if_neg (by simp)]
    simp only [Option.some.injEq, Prod.mk.injEq, List.map_cons, List.cons.injEq]
    exact ⟨⟨finOfNat_digitChar d,
      by simpa [List.map_map] using map_digitChar_inv ds⟩, trivial⟩

theorem parseNumBody_render (neg : Bool) (ip : Nat) (tail : List Char)
    (htail : tail.takeWhile Char.isDigit = []) :
    parseNumBody neg (natDigits ip ++ tail) = parseNumTail neg ip tail := by
  by_cases h0 : ip = 0
  · subst h0
    show parseNumBody neg ('0' :: tail) = _
    simp [parseNumBody]
  · obtain ⟨c, t, hct, hcd, hz⟩ := natDigits_head ip
    have hcz : c ≠ '0' := hz (by omega)
    rw [hct, List.cons_append]
    simp only [parseNumBody]
    rw [if_neg hcz, if_pos hcd]
    obtain ⟨sp, hsp⟩ := span_digits (natDigits_all_digit ip) htail
    rw [hct, List.cons_append] at sp hsp
    rw [sp, hsp, show c :: t = natDigits ip from hct.symm, digitsVal_natDigits]

theorem expChars_takeWhile (ex : Option (Bool × Nat)) (rest : List Char)
    (hr : noNumExt rest = true) :
    (expChars ex ++ rest).takeWhile Char.isDigit = [] := by
  match ex with
  | none => simpa [expChars] using noNumExt_takeWhile hr
  | some (s, e) => exact takeWhile_digit_nil_of_head (by decide)

theorem expChars_not_dot (ex : Option (Bool × Nat)) (rest : List Char)
    (hr : noNumExt rest = true) :
    ∀ c t, expChars ex ++ rest = c :: t → c ≠ '.' := by
  match ex with
  | none =>
    intro c t hct
    simp only [expChars, List.nil_append] at hct
    subst hct
    exact (noNumExt_head hr).2.1
  | some (s, e) =>
    intro c t hct
    simp only [expChars, List.cons_append, List.cons.injEq] at hct
    rw [← hct.1]
    decide

theorem parseNumber_render (n : JNum) (rest : List Char)
    (hr : noNumExt rest = true) :
    parseNumber (renderNum n ++ rest) = some (n, rest) := by
  obtain ⟨neg, ip, fr, ex⟩ := n
  have htail1 : ((fracChars fr ++ (expChars ex ++ rest))).takeWhile
      Char.isDigit = [] := by
    match fr with
    | [] => simpa [fracChars] using expChars_takeWhile ex rest hr
    | d :: ds => exact takeWhile_digit_nil_of_head (by decide)
  have key : parseNumBody neg (natDigits ip ++
      (fracChars fr ++ (expChars ex ++ rest))) =
      some (⟨neg, ip, fr, ex⟩, rest) := by
    rw [parseNumBody_render neg ip _ htail1]
    simp only [parseNumTail]
    rw [parseFrac_render fr _ (expChars_takeWhile ex rest hr)
      (expChars_not_dot ex rest hr)]
    simp [parseExp_render ex rest hr]
  cases neg with
  | false =>
    obtain ⟨c, t, hct, hcd, _⟩ := natDigits_head ip
    have hspec := digit_not_special hcd
    have hren : renderNum ⟨false, ip, fr, ex⟩ ++ rest =
        c :: (t ++ (fracChars fr ++ (expChars ex ++ rest))) := by
      simp [renderNum, hct]
    rw [hren]
    simp only [parseNumber]
    rw [if_neg hspec.2.2.2.2.2.2.2.2.2.2.2.1, ← List.cons_append, ← hct]
    exact key
  | true =>
    have hren : renderNum ⟨true, ip, fr, ex⟩ ++ rest =
        '-' :: (natDigits ip ++ (fracChars fr ++ (expChars ex ++ rest))) := by
      simp [renderNum]
    rw [hren]
    simp only [parseNumber, ite_true]
    exact key

theorem digit_noNumExt_delims :
    noNumExt [] = true ∧ (∀ t : List Char, noNumExt (',' :: t) = true) ∧
      (∀ t : List Char, noNumExt (']' :: t) = true) ∧
      (∀ t : List Char, noNumExt ('}' :: t) = true) := by
  exact ⟨rfl, fun t => rfl, fun t => rfl, fun t => rfl⟩

theorem renderNum_head (n : JNum) :
    ∃ c t, renderNum n = c :: t ∧
      (c = '-' ∨ c.isDigit = true) ∧ isJsonWs c = false ∧ c ≠ '{' ∧
      c ≠ '[' ∧ c ≠ '"' ∧ c ≠ 't' ∧ c ≠ 'f' ∧ c ≠ 'n' ∧ c ≠ ']' ∧ c ≠ '}' := by
  obtain ⟨neg, ip, fr, ex⟩ := n
  cases neg with
  | true =>
    exact ⟨'-', natDigits ip ++ fracChars fr ++ expChars ex,
      by simp [renderNum], Or.inl rfl, by decide, by decide, by decide,
      by decide, by decide, by decide, by decide, by decide, by decide⟩
  | false =>
    obtain ⟨c, t, hct, hcd, _⟩ := natDigits_head ip
    have hs := digit_not_special hcd
    exact ⟨c, t ++ fracChars fr ++ expChars ex,
      by simp [renderNum, hct], Or.inr hcd, hs.1, hs.2.1, hs.2.2.1,
      hs.2.2.2.1, hs.2.2.2.2.1, hs.2.2.2.2.2.1, hs.2.2.2.2.2.2.1,
      hs.2.2.2.2.2.2.2.1, hs.2.2.2.2.2.2.2.2.1⟩

theorem renderJson_head (v : Json) :
    ∃ c t, renderJson v = c :: t ∧ isJsonWs c = false ∧ c ≠ ']' ∧ c ≠ '}' := by
  match v with
  | .num n =>
    obtain ⟨c, t, hct, _, hws, _, _, _, _, _, _, hrb, hrc⟩ := renderNum_head n
    exact ⟨c, t, by simp [renderJson, hct], hws, hrb, hrc⟩
  | .null | .bool true | .bool false | .str _ | .arr _ | .obj _ =>
    refine ⟨_, _, rfl, by decide, by decide, by decide⟩

theorem renderNum_last (n : JNum) :
    ∃ t c, renderNum n = t ++ [c] ∧ isJsonWs c = false := by
  obtain ⟨neg, ip, fr, ex⟩ := n
  match hex : ex with
  | some (s, e) =>
    obtain ⟨t, d, htd, hd⟩ := natDigits_last e
    refine ⟨(if neg then ['-'] else []) ++ natDigits ip ++ fracChars fr ++
      ('e' :: ((if s then ['-'] else []) ++ t)), d, ?_, (digit_not_special hd).1⟩
    simp [renderNum, expChars, htd]
  | none =>
    match hfr : fr with
    | d :: ds =>
      rcases List.eq_nil_or_concat ((d :: ds).map digitChar) with h | ⟨t2, c2, ht2⟩
      · simp at h
      · have hc2 : c2.isDigit = true := by
          have hm : c2 ∈ (d :: ds).map digitChar := by simp [ht2]
          obtain ⟨k, _, rfl⟩ := List.mem_map.mp hm
          exact (digitChar_spec k).1
        refine ⟨(if neg then ['-'] else []) ++ natDigits ip ++ ('.' :: t2), c2,
          ?_, (digit_not_special hc2).1⟩
        simp [renderNum, fracChars, expChars, ht2]
    | [] =>
      obtain ⟨t, d, htd, hd⟩ := natDigits_last ip
      refine ⟨(if neg then ['-'] else []) ++ t, d, ?_,
        (digit_not_special hd).1⟩
      simp [renderNum, fracChars, expChars, htd]

theorem renderJson_last (v : Json) :
    ∃ t c, renderJson v = t ++ [c] ∧ isJsonWs c = false := by
  cases v with
  | null => exact ⟨['n', 'u', 'l'], 'l', rfl, by decide⟩
  | bool b =>
    cases b with
    | true => exact ⟨['t', 'r', 'u'], 'e', rfl, by decide⟩
    | false => exact ⟨['f', 'a', 'l', 's'], 'e', rfl, by decide⟩
  | str s =>
    exact ⟨'"' :: escChars s.data, '"', by simp [renderJson], by decide⟩
  | arr xs =>
    exact ⟨'[' :: renderElems xs, ']', by simp [renderJson], by decide⟩
  | obj fs =>
    exact ⟨'{' :: renderMembers fs, '}', by simp [renderJson], by decide⟩
  | num n =>
    obtain ⟨t, c, htc, hc⟩ := renderNum_last n
    exact ⟨t, c, by simp [renderJson, htc], hc⟩

theorem stringMk_data (s : String) : String.mk s.data = s := rfl

theorem escChar_length_pos (c : Char) : 1 ≤ (escChar c).length := by
  unfold escChar
  split_ifs <;> simp

theorem length_le_escChars (l : List Char) : l.length ≤ (escChars l).length := by
  induction l with
  | nil => simp [escChars]
  | cons c t ih =>
    have := escChar_length_pos c
    simp only [escChars, List.flatMap_cons, List.length_append,
      List.length_cons]
    have ht : t.length ≤ (escChars t).length := ih
    simp only [escChars] at ht
    omega

theorem skipWs_renderJson (v : Json) (x : List Char) :
    skipWs (renderJson v ++ x) = renderJson v ++ x := by
  obtain ⟨c, t, hct, hws, _, _⟩ := renderJson_head v
  rw [hct, List.cons_append, skipWs_cons hws]

theorem renderElems_cons (x : Json) (xs : List Json) :
    ∃ s, renderElems (x :: xs) = renderJson x ++ s := by
  cases xs with
  | nil => exact ⟨[], by simp [renderElems]⟩
  | cons y ys => exact ⟨',' :: renderElems (y :: ys), rfl⟩

theorem skipWs_renderElems (x : Json) (xs : List Json) (r : List Char) :
    skipWs (renderElems (x :: xs) ++ r) = renderElems (x :: xs) ++ r := by
  obtain ⟨s, hs⟩ := renderElems_cons x xs
  rw [hs, List.append_assoc, skipWs_renderJson, ← List.append_assoc]

theorem renderMembers_cons (k : String) (v : Json)
    (fs : List (String × Json)) :
    ∃ s, renderMembers ((k, v) :: fs) =
      '"' :: (escChars k.data ++ '"' :: ':' :: (renderJson v ++ s)) := by
  cases fs with
  | nil => exact ⟨[], by simp [renderMembers]⟩
  | cons m ms =>
    refine ⟨',' :: renderMembers (m :: ms), ?_⟩
    show ('"' :: (escChars k.data ++ '"' :: ':' :: renderJson v)) ++
      ',' :: renderMembers (m :: ms) = _
    simp

theorem skipWs_renderMembers (k : String) (v : Json)
    (fs : List (String × Json)) (r : List Char) :
    skipWs (renderMembers ((k, v) :: fs) ++ r) =
      renderMembers ((k, v) :: fs) ++ r := by
  obtain ⟨s, hs⟩ := renderMembers_cons k v fs
  rw [hs, List.cons_append, skipWs_cons (by decide)]

theorem parseValue_num_dispatch (f : Nat) (c : Char) (t : List Char)
    (hws : isJsonWs c = false) (h1 : c ≠ '{') (h2 : c ≠ '[') (h3 : c ≠ '"')
    (h4 : c ≠ 't') (h5 : c ≠ 'f') (h6 : c ≠ 'n') :
    parseValue (f + 1) (c :: t) =
      match parseNumber (c :: t) with
      | some (n, rest) => some (.num n, rest)
      | none => none := by
  have step : parseValue (f + 1) (c :: t) =
      (match skipWs (c :: t) with
       | [] => none
       | c :: r =>
         if c = '{' then
           match skipWs r with
           | [] => none
           | d :: r2 =>
             if d = '}' then some (.obj [], r2)
             else
               match parseMembers f (d :: r2) with
               | some (fs, rest) => some (.obj fs, rest)
               | none => none
         else if c = '[' then
           match skipWs r with
           | [] => none
           | d :: r2 =>
             if d = ']' then some (.arr [], r2)
             else
               match parseElems f (d :: r2) with
               | some (xs, rest) => some (.arr xs, rest)
               | none => none
         else if c = '"' then
           match parseStringBody f r with
           | some (cs, rest) => some (.str (String.mk cs), rest)
           | none => none
         else if c = 't' then
           match matchLit ['r', 'u', 'e'] r with
           | some rest => some (.bool true, rest)
           | none => none
         else if c = 'f' then
           match matchLit ['a', 'l', 's', 'e'] r with
           | some rest => some (.bool false, rest)
           | none => none
         else if c = 'n' then
           match matchLit ['u', 'l', 'l'] r with
           | some rest => some (.null, rest)
           | none => none
         else
           match parseNumber (c :: r) with
           | some (n, rest) => some (.num n, rest)
           | none => none) := rfl
  rw [step, skipWs_cons hws]
  simp only [if_neg h1, if_neg h2, if_neg h3, if_neg h4, if_neg h5, if_neg h6]

theorem parseValue_arr_cons (f : Nat) (x : Json) (xs : List Json)
    (rest : List Char) :
    parseValue (f + 1) ('[' :: (renderElems (x :: xs) ++ ']' :: rest)) =
      match parseElems f (renderElems (x :: xs) ++ ']' :: rest) with
      | some (vs, r) => some (.arr vs, r)
      | none => none := by
  obtain ⟨s, hs⟩ := renderElems_cons x xs
  obtain ⟨c, t, hct, hws, hrb, _⟩ := renderJson_head x
  have hshape : renderElems (x :: xs) ++ ']' :: rest =
      c :: (t ++ s ++ ']' :: rest) := by
    rw [hs, hct]; simp
  have step : parseValue (f + 1)
      ('[' :: (renderElems (x :: xs) ++ ']' :: rest)) =
      (match skipWs (renderElems (x :: xs) ++ ']' :: rest) with
       | [] => none
       | d :: r2 =>
         if d = ']' then some (.arr [], r2)
         else
           match parseElems f (d :: r2) with
           | some (xs, rest) => some (.arr xs, rest)
           | none => none) := rfl
  rw [step, skipWs_renderElems, hshape]
  simp only [if_neg hrb]

theorem parseValue_obj_cons (f : Nat) (k : String) (v : Json)
    (fs : List (String × Json)) (rest : List Char) :
    parseValue (f + 1)
        ('{' :: (renderMembers ((k, v) :: fs) ++ '}' :: rest)) =
      match parseMembers f (renderMembers ((k, v) :: fs) ++ '}' :: rest) with
      | some (ms, r) => some (.obj ms, r)
      | none => none := by
  obtain ⟨s, hs⟩ := renderMembers_cons k v fs
  have hshape : renderMembers ((k, v) :: fs) ++ '}' :: rest =
      '"' :: (escChars k.data ++ '"' :: ':' :: (renderJson v ++ s) ++
        '}' :: rest) := by
    rw [hs]; simp
  have step : parseValue (f + 1)
      ('{' :: (renderMembers ((k, v) :: fs) ++ '}' :: rest)) =
      (match skipWs (renderMembers ((k, v) :: fs) ++ '}' :: rest) with
       | [] => none
       | d :: r2 =>
         if d = '}' then some (.obj [], r2)
         else
           match parseMembers f (d :: r2) with
           | some (fs, rest) => some (.obj fs, rest)
           | none => none) := rfl
  rw [step, skipWs_renderMembers, hshape]
  simp only [if_neg (by decide : ¬('"' = '}'))]

mutual
theorem rt_val : ∀ (v : Json) (fuel : Nat) (rest : List Char),
    (renderJson v).length < fuel → noNumExt rest = true →
    parseValue fuel (renderJson v ++ rest) = some (v, rest)
  | .null, fuel, rest, hf, _ => by
    cases fuel with
    | zero => exact absurd hf (Nat.not_lt_zero _)
    | succ f => rfl
  | .bool true, fuel, rest, hf, _ => by
    cases fuel with
    | zero => exact absurd hf (Nat.not_lt_zero _)
    | succ f => rfl
  | .bool false, fuel, rest, hf, _ => by
    cases fuel with
    | zero => exact absurd hf (Nat.not_lt_zero _)
    | succ f => rfl
  | .num n, fuel, rest, hf, hr => by
    cases fuel with
    | zero => exact absurd hf (Nat.not_lt_zero _)
    | succ f =>
      obtain ⟨c, t, hct, _, hws, h1, h2, h3, h4, h5, h6, _, _⟩ :=
        renderNum_head n
      show parseValue (f + 1) (renderNum n ++ rest) = _
      rw [hct, List.cons_append,
        parseValue_num_dispatch f c _ hws h1 h2 h3 h4 h5 h6,
        ← List.cons_append, ← hct, parseNumber_render n rest hr]
  | .str s, fuel, rest, hf, _ => by
    cases fuel with
    | zero => exact absurd hf (Nat.not_lt_zero _)
    | succ f =>
      have hshape : renderJson (.str s) ++ rest =
          '"' :: (escChars s.data ++ '"' :: rest) := by
        simp [renderJson]
      have hlen : s.data.length < f := by
        have h1 := length_le_escChars s.data
        simp only [renderJson, List.length_cons, List.length_append,
          List.length_singleton] at hf
        omega
      rw [hshape]
      have step : parseValue (f + 1) ('"' :: (escChars s.data ++ '"' :: rest)) =
          match parseStringBody f (escChars s.data ++ '"' :: rest) with
          | some (cs, r) => some (.str (String.mk cs), r)
          | none => none := rfl
      rw [step, parseStringBody_escChars s.data f rest hlen]
  | .arr [], fuel, rest, hf, _ => by
    cases fuel with
    | zero => exact absurd hf (Nat.not_lt_zero _)
    | succ f =>
      have hshape : renderJson (.arr []) ++ rest = '[' :: ']' :: rest := by
        simp [renderJson, renderElems]
      rw [hshape]
      rfl
  | .arr (x :: xs), fuel, rest, hf, _ => by
    cases fuel with
    | zero => exact absurd hf (Nat.not_lt_zero _)
    | succ f =>
      have hE : (renderElems (x :: xs)).length + 1 < f := by
        simp only [renderJson, List.length_cons, List.length_append,
          List.length_singleton] at hf
        omega
      have hshape : renderJson (.arr (x :: xs)) ++ rest =
          '[' :: (renderElems (x :: xs) ++ ']' :: rest) := by
        simp [renderJson]
      rw [hshape, parseValue_arr_cons, rt_elems x xs f rest hE]
  | .obj [], fuel, rest, hf, _ => by
    cases fuel with
    | zero => exact absurd hf (Nat.not_lt_zero _)
    | succ f =>
      have hshape : renderJson (.obj []) ++ rest = '{' :: '}' :: rest := by
        simp [renderJson, renderMembers]
      rw [hshape]
      rfl
  | .obj ((k, v) :: fs), fuel, rest, hf, _ => by
    cases fuel with
    | zero => exact absurd hf (Nat.not_lt_zero _)
    | succ f =>
      have hM : (renderMembers ((k, v) :: fs)).length + 1 < f := by
        simp only [renderJson, List.length_cons, List.length_append,
          List.length_singleton] at hf
        omega
      have hshape : renderJson (.obj ((k, v) :: fs)) ++ rest =
          '{' :: (renderMembers ((k, v) :: fs) ++ '}' :: rest) := by
        simp [renderJson]
      rw [hshape, parseValue_obj_cons, rt_members k v fs f rest hM]
termination_by v _ _ _ _ => sizeOf v

theorem rt_elems : ∀ (x : Json) (xs : List Json) (fuel : Nat)
    (rest : List Char),
    (renderElems (x :: xs)).length + 1 < fuel →
    parseElems fuel (renderElems (x :: xs) ++ ']' :: rest) =
      some (x :: xs, rest)
  | x, [], fuel, rest, hf => by
    cases fuel with
    | zero => exact absurd hf (Nat.not_lt_zero _)
    | succ f =>
      have hx : (renderJson x).length < f := by
        simp only [renderElems] at hf
        omega
      have hv := rt_val x f (']' :: rest) hx (digit_noNumExt_delims.2.2.1 rest)
      have hsh : renderElems [x] = renderJson x := by simp [renderElems]
      simp only [parseElems, hsh, hv]
      simp [skipWs, List.dropWhile_cons, isJsonWs]
  | x, y :: ys, fuel, rest, hf => by
    cases fuel with
    | zero => exact absurd hf (Nat.not_lt_zero _)
    | succ f =>
      have hsh : renderElems (x :: y :: ys) =
          renderJson x ++ ',' :: renderElems (y :: ys) := rfl
      have hx : (renderJson x).length < f := by
        rw [hsh] at hf
        simp only [List.length_append, List.length_cons] at hf
        omega
      have hE : (renderElems (y :: ys)).length + 1 < f := by
        rw [hsh] at hf
        simp only [List.length_append, List.length_cons] at hf
        omega
      have hv := rt_val x f (',' :: (renderElems (y :: ys) ++ ']' :: rest)) hx
        (digit_noNumExt_delims.2.1 _)
      have key := rt_elems y ys f rest hE
      have hshape : renderElems (x :: y :: ys) ++ ']' :: rest =
          renderJson x ++ ',' :: (renderElems (y :: ys) ++ ']' :: rest) := by
        rw [hsh]; simp
      simp only [parseElems, hshape, hv]
      simp [key, skipWs, List.dropWhile_cons, isJsonWs]
termination_by x xs _ _ _ => sizeOf x + sizeOf xs

theorem rt_members : ∀ (k : String) (v : Json) (fs : List (String × Json))
    (fuel : Nat) (rest : List Char),
    (renderMembers ((k, v) :: fs)).length + 1 < fuel →
    parseMembers fuel (renderMembers ((k, v) :: fs) ++ '}' :: rest) =
      some ((k, v) :: fs, rest)
  | k, v, [], fuel, rest, hf => by
    cases fuel with
    | zero => exact absurd hf (Nat.not_lt_zero _)
    | succ f =>
      have hsh : renderMembers [(k, v)] =
          '"' :: (escChars k.data ++ '"' :: ':' :: renderJson v) := rfl
      have hk : k.data.length < f := by
        have h1 := length_le_escChars k.data
        rw [hsh] at hf
        simp only [List.length_cons, List.length_append] at hf
        omega
      have hv : (renderJson v).length < f := by
        rw [hsh] at hf
        simp only [List.length_cons, List.length_append] at hf
        omega
      have hval := rt_val v f ('}' :: rest) hv (digit_noNumExt_delims.2.2.2 rest)
      have hshape : renderMembers [(k, v)] ++ '}' :: rest =
          '"' :: (escChars k.data ++ '"' ::
            (':' :: (renderJson v ++ '}' :: rest))) := by
        rw [hsh]; simp
      rw [hshape]
      simp [parseMembers,
        parseStringBody_escChars k.data f
          (':' :: (renderJson v ++ '}' :: rest)) hk,
        hval, stringMk_data, skipWs, List.dropWhile_cons, isJsonWs]
  | k, v, (k2, v2) :: ms, fuel, rest, hf => by
    cases fuel with
    | zero => exact absurd hf (Nat.not_lt_zero _)
    | succ f =>
      have hsh : renderMembers ((k, v) :: (k2, v2) :: ms) =
          ('"' :: (escChars k.data ++ '"' :: ':' :: renderJson v)) ++
            ',' :: renderMembers ((k2, v2) :: ms) := rfl
      have hk : k.data.length < f := by
        have h1 := length_le_escChars k.data
        rw [hsh] at hf
        simp only [List.length_cons, List.length_append] at hf
        omega
      have hv : (renderJson v).length < f := by
        rw [hsh] at hf
        simp only [List.length_cons, List.length_append] at hf
        omega
      have hM : (renderMembers ((k2, v2) :: ms)).length + 1 < f := by
        rw [hsh] at hf
        simp only [List.length_cons, List.length_append] at hf
        omega
      have hval := rt_val v f
        (',' :: (renderMembers ((k2, v2) :: ms) ++ '}' :: rest)) hv
        (digit_noNumExt_delims.2.1 _)
      have key := rt_members k2 v2 ms f rest hM
      have hshape : renderMembers ((k, v) :: (k2, v2) :: ms) ++ '}' :: rest =
          '"' :: (escChars k.data ++ '"' :: (':' :: (renderJson v ++
            ',' :: (renderMembers ((k2, v2) :: ms) ++ '}' :: rest)))) := by
        rw [hsh]; simp
      rw [hshape]
      simp [parseMembers,
        parseStringBody_escChars k.data f
          (':' :: (renderJson v ++
            ',' :: (renderMembers ((k2, v2) :: ms) ++ '}' :: rest))) hk,
        hval, key, stringMk_data, skipWs, List.dropWhile_cons, isJsonWs]
termination_by _ v fs _ _ _ => sizeOf v + sizeOf fs
end

theorem parseJsonStr_render (v : Json) :
    parseJsonStr (renderJsonStr v) = some v := by
  obtain ⟨t, c, htc, hc⟩ := renderJson_last v
  have hdrop : dropTrailingWs (renderJson v) = renderJson v := by
    rw [htc]; exact dropTrailingWs_of_last hc
  have hval := rt_val v ((renderJson v).length + 1) [] (by omega) rfl
  rw [List.append_nil] at hval
  show (match parseValue
      ((dropTrailingWs (String.mk (renderJson v)).data).length + 1)
      (dropTrailingWs (String.mk (renderJson v)).data) with
    | some (v, rest) => if rest.all isJsonWs then some v else none
    | none => none) = some v
  rw [show (String.mk (renderJson v)).data = renderJson v from rfl, hdrop,
    hval]
  rfl

theorem decodeList_map (dec : Json → Option α) (enc : α → Json) (l : List α)
    (h : ∀ x ∈ l, dec (enc x) = some x) :
    decodeList dec (l.map enc) = some l := by
  induction l with
  | nil => rfl
  | cons x xs ih =>
    simp only [List.map_cons, decodeList, h x (by simp)]
    rw [ih (fun y hy => h y (by simp [hy]))]

theorem decode_encode_metrics (m : SystemMetrics)
    (h1 : m.events_today < 4294967296) (h2 : m.active_agents < 4294967296) :
    decodeSystemMetrics (encodeSystemMetrics m) = some m := by
  obtain ⟨e, a, cs, mu, cu, la⟩ := m
  simp only at h1 h2
  cases cu <;> cases la <;>
    simp [decodeSystemMetrics, encodeSystemMetrics, keysNodup, hasKey,
      reqField, optField, getField, asU32, asF64, asString, encOpt, natNum,
      h1, h2]

theorem decode_encode_analysis (r : AnalysisResults) :
    decodeAnalysisResults (encodeAnalysisResults r) = some r := by
  obtain ⟨ts, aid, ds, cr, co, re, du, er⟩ := r
  cases du <;> cases er <;>
    simp [decodeAnalysisResults, encodeAnalysisResults, keysNodup, hasKey,
      reqField, optField, getField, asValue, asArr, asF64, asString, encOpt]

theorem decode_encode_message (m : ChatMessage) :
    decodeChatMessage (encodeChatMessage m) = some m := by
  obtain ⟨co, an, sp, cf, sa⟩ := m
  simp [decodeChatMessage, encodeChatMessage, keysNodup, hasKey, reqField,
    getField, asString, asF64, asStringList, asArr,
    decodeList_map asString Json.str sa (fun x _ => rfl)]

theorem decode_encode_session (s : ChatSession)
    (h1 : s.message_count < 4294967296) :
    decodeChatSession (encodeChatSession s) = some s := by
  obtain ⟨sid, st, du, mc, aa, ms⟩ := s
  simp only at h1
  simp [decodeChatSession, encodeChatSession, keysNodup, hasKey, reqField,
    optField, getField, asU32, asF64, asString, asStringList, asArr, natNum,
    h1, decodeList_map asString Json.str aa (fun x _ => rfl),
    decodeList_map decodeChatMessage encodeChatMessage ms
      (fun x _ => decode_encode_message x)]

/-! # Claim theorems -/

theorem asString_eq_some {v : Json} {s : String} (h : asString v = some s) :
    v = .str s := by
  cases v <;> simp_all [asString]

theorem asArr_eq_some {v : Json} {l : List Json} (h : asArr v = some l) :
    v = .arr l := by
  cases v <;> simp_all [asArr]

/-- Claim C9: serializing a well-formed `AnalysisResults`, `SystemMetrics` or
`ChatSession` value to JSON text and deserializing that text reproduces a
structurally equal value (the `u32` fields must be in `u32` range, as the Rust
types force). -/
theorem json_roundtrip_analysis_metrics_session :
    ∀ (r : AnalysisResults) (m : SystemMetrics) (s : ChatSession),
      m.events_today < 4294967296 → m.active_agents < 4294967296 →
      s.message_count < 4294967296 →
      analysisFromStr (analysisToString r) = some r ∧
      metricsFromStr (metricsToString m) = some m ∧
      sessionFromStr (sessionToString s) = some s := by
  intro r m s h1 h2 h3
  refine ⟨?_, ?_, ?_⟩
  · rw [analysisFromStr, analysisToString, parseJsonStr_render]
    exact decode_encode_analysis r
  · rw [metricsFromStr, metricsToString, parseJsonStr_render]
    exact decode_encode_metrics m h1 h2
  · rw [sessionFromStr, sessionToString, parseJsonStr_render]
    exact decode_encode_session s h3

theorem json_roundtrip_analysis_metrics_session_witness :
    (8542 < 4294967296 ∧ 2 < 4294967296 ∧ 1 < 4294967296) ∧
      (analysisFromStr (analysisToString
        ⟨"2024-01-01T00:00:00", "a1", Json.null, Json.obj [], Json.null,
          [natNum 1], some ⟨false, 1, [5], none⟩, none⟩) =
        some ⟨"2024-01-01T00:00:00", "a1", Json.null, Json.obj [], Json.null,
          [natNum 1], some ⟨false, 1, [5], none⟩, none⟩ ∧
      metricsFromStr (metricsToString
        ⟨8542, 2, "Active", ⟨false, 245, [6], none⟩,
          some ⟨false, 12, [3], none⟩, some "2 minutes ago"⟩) =
        some ⟨8542, 2, "Active", ⟨false, 245, [6], none⟩,
          some ⟨false, 12, [3], none⟩, some "2 minutes ago"⟩ ∧
      sessionFromStr (sessionToString
        ⟨"sess-1", ⟨false, 0, [], none⟩, ⟨false, 1, [], none⟩, 1, ["agent"],
          [⟨"hi", "a", "s", ⟨false, 0, [9], none⟩, ["x"]⟩]⟩) =
        some ⟨"sess-1", ⟨false, 0, [], none⟩, ⟨false, 1, [], none⟩, 1,
          ["agent"], [⟨"hi", "a", "s", ⟨false, 0, [9], none⟩, ["x"]⟩]⟩) :=
  ⟨⟨by decide, by decide, by decide⟩,
    json_roundtrip_analysis_metrics_session
      ⟨"2024-01-01T00:00:00", "a1", Json.null, Json.obj [], Json.null,
        [natNum 1], some ⟨false, 1, [5], none⟩, none⟩
      ⟨8542, 2, "Active", ⟨false, 245, [6], none⟩,
        some ⟨false, 12, [3], none⟩, some "2 minutes ago"⟩
      ⟨"sess-1", ⟨false, 0, [], none⟩, ⟨false, 1, [], none⟩, 1, ["agent"],
        [⟨"hi", "a", "s", ⟨false, 0, [9], none⟩, ["x"]⟩]⟩
      (by decide) (by decide) (by decide)⟩

/-- Claim C7: the decode step rejects empty, truncated, invalid or
shape-mismatching stdout with a parse error, never yielding a
partially-populated result, and tolerates trailing whitespace after the JSON
document. -/
theorem decoders_reject_malformed_stdout :
    parseJsonStr "" = none ∧
    (∀ s ws : String, ws.data.all isJsonWs = true →
      parseJsonStr (s ++ ws) = parseJsonStr s) ∧
    (∀ fs : List (String × Json), getField fs "timestamp" = none →
      decodeAnalysisResults (.obj fs) = none) ∧
    (∀ (j : Json) (r : AnalysisResults), decodeAnalysisResults j = some r →
      ∃ fs, j = .obj fs ∧
        getField fs "timestamp" = some (.str r.timestamp) ∧
        getField fs "analysis_id" = some (.str r.analysis_id) ∧
        getField fs "data_summary" = some r.data_summary ∧
        getField fs "clustering_results" = some r.clustering_results ∧
        getField fs "consensus" = some r.consensus ∧
        getField fs "recommendations" = some (.arr r.recommendations)) ∧
    (∀ (out : Output) (p : String), out.code = 0 →
      analysisFromStr out.stdout = none →
      get_latest_analysis (fun _ => SpawnResult.ok out) p =
        .error "Failed to parse JSON") ∧
    (∀ (out : Output) (p m sid : String), out.code = 0 →
      (chatResponseFromStr out.stdout = none →
        send_chat_message (fun _ => SpawnResult.ok out) p m sid =
          .error "Failed to parse response") ∧
      (sessionFromStr out.stdout = none →
        get_chat_history (fun _ => SpawnResult.ok out) p sid =
          .error "Failed to parse chat history")) := by
  refine ⟨rfl, ?_, ?_, ?_, ?_, ?_⟩
  · intro s ws h
    have hws : ∀ c ∈ ws.data, isJsonWs c = true := List.all_eq_true.mp h
    simp only [parseJsonStr, String.data_append,
      dropTrailingWs_append_ws hws]
  · intro fs h
    by_cases hk : keysNodup fs
    · simp [decodeAnalysisResults, hk, reqField, h]
    · simp [decodeAnalysisResults, hk]
  · intro j r h
    cases j with
    | obj fs =>
      refine ⟨fs, rfl, ?_⟩
      simp only [decodeAnalysisResults] at h
      split at h
      · simp only [reqField, optField, Option.bind_eq_some] at h
        obtain ⟨ts, ⟨vts, hgts, hats⟩, h⟩ := h
        obtain ⟨aid, ⟨vaid, hgaid, haid⟩, h⟩ := h
        obtain ⟨ds, ⟨vds, hgds, hds⟩, h⟩ := h
        obtain ⟨cr, ⟨vcr, hgcr, hcr⟩, h⟩ := h
        obtain ⟨co, ⟨vco, hgco, hco⟩, h⟩ := h
        obtain ⟨re, ⟨vre, hgre, hre⟩, h⟩ := h
        obtain ⟨du, hdu, h⟩ := h
        obtain ⟨er, her, h⟩ := h
        rw [Option.some_inj] at h
        subst h
        simp only [asValue, Option.some_inj] at hds hcr hco
        subst hds; subst hcr; subst hco
        rw [asString_eq_some hats] at hgts
        rw [asString_eq_some haid] at hgaid
        rw [asArr_eq_some hre] at hgre
        exact ⟨hgts, hgaid, hgds, hgcr, hgco, hgre⟩
      · exact absurd h (by simp)
    | null => simp [decodeAnalysisResults] at h
    | bool b => simp [decodeAnalysisResults] at h
    | num n => simp [decodeAnalysisResults] at h
    | str s => simp [decodeAnalysisResults] at h
    | arr xs => simp [decodeAnalysisResults] at h
  · intro out p h0 hparse
    have hs : out.success = true := by simp [Output.success, h0]
    simp [get_latest_analysis, hs, hparse]
  · intro out p m sid h0
    have hs : out.success = true := by simp [Output.success, h0]
    constructor
    · intro hparse
      simp [send_chat_message, hs, hparse]
    · intro hparse
      simp [get_chat_history, hs, hparse]

theorem decoders_reject_malformed_stdout_witness :
    ((" " : String).data.all isJsonWs = true ∧
      getField ([] : List (String × Json)) "timestamp" = none ∧
      decodeAnalysisResults (encodeAnalysisResults
        ⟨"t", "a", Json.null, Json.null, Json.null, [], none, none⟩) =
        some ⟨"t", "a", Json.null, Json.null, Json.null, [], none, none⟩ ∧
      (0 : Nat) = 0 ∧ analysisFromStr "" = none ∧
      chatResponseFromStr "" = none ∧ sessionFromStr "" = none) ∧
    parseJsonStr ("{}" ++ " ") = parseJsonStr "{}" ∧
    decodeAnalysisResults (.obj []) = none ∧
    (∃ fs, encodeAnalysisResults
        ⟨"t", "a", Json.null, Json.null, Json.null, [], none, none⟩ =
          .obj fs ∧
      getField fs "timestamp" = some (.str "t") ∧
      getField fs "analysis_id" = some (.str "a") ∧
      getField fs "data_summary" = some Json.null ∧
      getField fs "clustering_results" = some Json.null ∧
      getField fs "consensus" = some Json.null ∧
      getField fs "recommendations" = some (.arr [])) ∧
    get_latest_analysis (fun _ => SpawnResult.ok ⟨0, "", ""⟩) "python3" =
      .error "Failed to parse JSON" ∧
    send_chat_message (fun _ => SpawnResult.ok ⟨0, "", ""⟩) "python3" "hi"
      "sess-1" = .error "Failed to parse response" ∧
    get_chat_history (fun _ => SpawnResult.ok ⟨0, "", ""⟩) "python3" "sess-1" =
      .error "Failed to parse chat history" :=
  ⟨⟨by decide, rfl, decode_encode_analysis _, rfl, rfl, rfl, rfl⟩,
    decoders_reject_malformed_stdout.2.1 "{}" " " (by decide),
    decoders_reject_malformed_stdout.2.2.1 [] rfl,
    decoders_reject_malformed_stdout.2.2.2.1 _ _ (decode_encode_analysis _),
    (decoders_reject_malformed_stdout.2.2.2.2.1 ⟨0, "", ""⟩ "python3" rfl rfl),
    (decoders_reject_malformed_stdout.2.2.2.2.2 ⟨0, "", ""⟩ "python3" "hi"
      "sess-1" rfl).1 rfl,
    (decoders_reject_malformed_stdout.2.2.2.2.2 ⟨0, "", ""⟩ "python3" "hi"
      "sess-1" rfl).2 rfl⟩

/-- Claim C1 (bug evidence): `send_chat_message` escapes only double quotes,
not backslashes.  A message consisting of a single backslash is embedded
unchanged, so the Python consuming layer reads the literal boundary past the
argument separator: the parsed-back message is `", ` (quote, comma, space),
not the original backslash — the round-trip property fails and the argument
boundary is broken. -/
theorem send_chat_message_escape_backslash_bug :
    escapeMessage "\\" = "\\" ∧
    pyParseStrLit (embeddedArgs "\\" "sess-1").data =
      some ("\", ".data, "sess-1\"".data) ∧
    ("\", " : String) ≠ "\\" :=
  ⟨rfl, rfl, by decide⟩

/-- Claim C2 (bug evidence): a backend without a session interface prints
`{}` (exit code 0), but serde cannot deserialize `{}` into `ChatSession`
(all six fields are required), so `get_chat_history` returns an error rather
than an empty `ChatSession`. -/
theorem get_chat_history_empty_backend_errors :
    parseJsonStr "{}" = some (Json.obj []) ∧
    decodeChatSession (Json.obj []) = none ∧
    get_chat_history (fun _ => SpawnResult.ok ⟨0, "{}", ""⟩) "python3"
      "sess-1" = Except.error "Failed to parse chat history" :=
  ⟨rfl, rfl, rfl⟩

/-- Claim C3 (counterexample): all-whitespace stdout does not produce an
error — `start_chat_session` happily returns the empty session id. -/
theorem start_chat_session_whitespace_stdout_not_error :
    start_chat_session (fun _ => SpawnResult.ok ⟨0, "  \n", ""⟩) "python3" =
      Except.ok "" := rfl

/-- Claim C3 (amended): on a zero exit status `start_chat_session` returns
exactly the captured stdout trimmed of leading/trailing whitespace, with no
validation at all — not even non-emptiness. -/
theorem start_chat_session_returns_trimmed_stdout :
    ∀ (out : Output) (python_path : String), out.code = 0 →
      start_chat_session (fun _ => SpawnResult.ok out) python_path =
        Except.ok (rustTrim out.stdout) := by
  intro out python_path h0
  have hs : out.success = true := by simp [Output.success, h0]
  simp [start_chat_session, hs]

theorem start_chat_session_returns_trimmed_stdout_witness :
    start_chat_session (fun _ => SpawnResult.ok ⟨0, "sess-123\n", ""⟩)
      "python3" = Except.ok "sess-123" :=
  start_chat_session_returns_trimmed_stdout ⟨0, "sess-123\n", ""⟩ "python3" rfl

/-- Claim C4: the locator returns the first candidate whose probe exits
successfully, and the probe trace stops there — no later candidate is
probed. -/
theorem detect_python_path_first_success :
    ∀ (probe : String → SpawnResult) (l1 l2 : List String) (c : String),
      (∀ x ∈ l1, probeOk probe x = false) → probeOk probe c = true →
      detectFirst probe (l1 ++ c :: l2) = c ∧
        detectFirstTrace probe (l1 ++ c :: l2) = (c, l1 ++ [c]) := by
  intro probe l1 l2 c h hc
  induction l1 with
  | nil => simp [detectFirst, detectFirstTrace, hc]
  | cons a t ih =>
    have ha : probeOk probe a = false := h a (by simp)
    have iht := ih (fun x hx => h x (by simp [hx]))
    refine ⟨by simp [detectFirst, ha, iht.1], ?_⟩
    simp [detectFirstTrace, ha, iht.2]

theorem detect_python_path_first_success_witness :
    ((∀ x ∈ ["nonexistent-bin"],
        probeOk (fun cand => if cand = "python3" then SpawnResult.ok ⟨0, "", ""⟩
          else SpawnResult.err "No such file or directory") x = false) ∧
      probeOk (fun cand => if cand = "python3" then SpawnResult.ok ⟨0, "", ""⟩
        else SpawnResult.err "No such file or directory") "python3" = true) ∧
    detectFirst (fun cand => if cand = "python3" then SpawnResult.ok ⟨0, "", ""⟩
        else SpawnResult.err "No such file or directory")
      ["nonexistent-bin", "python3"] = "python3" ∧
    detectFirstTrace (fun cand => if cand = "python3" then
        SpawnResult.ok ⟨0, "", ""⟩
        else SpawnResult.err "No such file or directory")
      ["nonexistent-bin", "python3"] =
      ("python3", ["nonexistent-bin", "python3"]) :=
  ⟨⟨by decide, by decide⟩,
    detect_python_path_first_success _ ["nonexistent-bin"] [] "python3"
      (by decide) (by decide)⟩

theorem detectFirst_fallback (probe : String → SpawnResult) :
    ∀ l : List String, (∀ c ∈ l, probeOk probe c = false) →
      detectFirst probe l = "python3" := by
  intro l h
  induction l with
  | nil => rfl
  | cons a t ih =>
    simp [detectFirst, h a (by simp), ih (fun x hx => h x (by simp [hx]))]

/-- Claim C5: when no candidate probe succeeds, `detect_python_path` (both
variants) returns the hardcoded default `"python3"`; being `String`-valued it
cannot return an error. -/
theorem detect_python_path_fallback_default :
    ∀ probe : String → SpawnResult,
      (∀ c ∈ pythonCandidates, probeOk probe c = false) →
      (∀ c ∈ selflowCandidates, probeOk probe c = false) →
      detect_python_path probe = "python3" ∧
        detect_python_path_selflow probe = "python3" := by
  intro probe h1 h2
  exact ⟨detectFirst_fallback probe pythonCandidates h1,
    detectFirst_fallback probe selflowCandidates h2⟩

theorem detect_python_path_fallback_default_witness :
    ((∀ c ∈ pythonCandidates,
        probeOk (fun _ => SpawnResult.err "No such file or directory") c =
          false) ∧
      (∀ c ∈ selflowCandidates,
        probeOk (fun _ => SpawnResult.err "No such file or directory") c =
          false)) ∧
    detect_python_path (fun _ => SpawnResult.err "No such file or directory") =
      "python3" ∧
    detect_python_path_selflow
      (fun _ => SpawnResult.err "No such file or directory") = "python3" :=
  ⟨⟨by decide, by decide⟩,
    detect_python_path_fallback_default _ (by decide) (by decide)⟩

/-- Claim C6: every command reports a spawn failure as an error wrapping the
OS error text, and a non-zero exit as an error carrying the captured stderr;
in the non-zero-exit case the result does not depend on stdout (it is never
decoded). -/
theorem commands_distinguish_spawn_and_command_failure :
    ∀ (e python_path message session_id : String) (out : Output),
      out.code ≠ 0 →
      (get_latest_analysis (fun _ => SpawnResult.err e) python_path =
          .error ("Failed to execute Python script: " ++ e) ∧
        trigger_analysis (fun _ => SpawnResult.err e) python_path =
          .error ("Failed to execute Python script: " ++ e) ∧
        start_chat_session (fun _ => SpawnResult.err e) python_path =
          .error ("Failed to start chat session: " ++ e) ∧
        send_chat_message (fun _ => SpawnResult.err e) python_path message
          session_id = .error ("Failed to send message: " ++ e) ∧
        get_chat_history (fun _ => SpawnResult.err e) python_path session_id =
          .error ("Failed to get chat history: " ++ e)) ∧
      (get_latest_analysis (fun _ => SpawnResult.ok out) python_path =
          .error ("Python script failed: " ++ out.stderr) ∧
        trigger_analysis (fun _ => SpawnResult.ok out) python_path =
          .error ("Analysis failed: " ++ out.stderr) ∧
        start_chat_session (fun _ => SpawnResult.ok out) python_path =
          .error ("Failed to start chat session: " ++ out.stderr) ∧
        send_chat_message (fun _ => SpawnResult.ok out) python_path message
          session_id = .error ("Failed to send message: " ++ out.stderr) ∧
        get_chat_history (fun _ => SpawnResult.ok out) python_path
          session_id =
          .error ("Failed to get chat history: " ++ out.stderr)) := by
  intro e python_path message session_id out h0
  have hs : out.success = false := by
    simp [Output.success]
    omega
  refine ⟨⟨rfl, rfl, rfl, rfl, rfl⟩, ?_, ?_, ?_, ?_, ?_⟩
  · simp [get_latest_analysis, hs]
  · simp [trigger_analysis, hs]
  · simp [start_chat_session, hs]
  · simp [send_chat_message, hs]
  · simp [get_chat_history, hs]

theorem commands_distinguish_spawn_and_command_failure_witness :
    ((1 : Nat) ≠ 0) ∧
    get_latest_analysis
      (fun _ => SpawnResult.err "No such file or directory (os error 2)")
      "python3" =
      .error ("Failed to execute Python script: " ++
        "No such file or directory (os error 2)") ∧
    get_latest_analysis (fun _ => SpawnResult.ok ⟨1, "ignored stdout", "boom"⟩)
      "python3" = .error ("Python script failed: " ++ "boom") :=
  ⟨by decide,
    (commands_distinguish_spawn_and_command_failure
      "No such file or directory (os error 2)" "python3" "hi" "sess-1"
      ⟨1, "ignored stdout", "boom"⟩ (by decide)).1.1,
    (commands_distinguish_spawn_and_command_failure
      "No such file or directory (os error 2)" "python3" "hi" "sess-1"
      ⟨1, "ignored stdout", "boom"⟩ (by decide)).2.1⟩

/-- Claim C8: no command writes the cached interpreter path: each
state-threaded command returns the `AppState` it was given, on success and on
error alike. -/
theorem commands_preserve_python_path_state :
    ∀ (world : World) (state : AppState) (message session_id : String),
      (get_latest_analysisSt world state).2 = state ∧
      (trigger_analysisSt world state).2 = state ∧
      (start_chat_sessionSt world state).2 = state ∧
      (send_chat_messageSt world state message session_id).2 = state ∧
      (get_chat_historySt world state session_id).2 = state :=
  fun _ _ _ _ => ⟨rfl, rfl, rfl, rfl, rfl⟩

/-- Claim C10: `get_system_metrics` is a stateless constant: it always
returns `Ok` with the same mocked snapshot (8542 events, 2 agents,
"Active", 245.6 MB, 12.3% CPU, "2 minutes ago"), touching no state and
querying nothing. -/
theorem get_system_metrics_constant :
    get_system_metrics =
      Except.ok ⟨8542, 2, "Active", ⟨false, 245, [6], none⟩,
        some ⟨false, 12, [3], none⟩, some "2 minutes ago"⟩ := rfl
